import Mathlib

/-!
Verification of the generic service/store layer of a FastAPI + SQLModel CRUD
backend (`app/core/services.py`, `app/db/base.py`, `app/core/config.py`,
`app/core/dependencies.py`).

The embedding is shallow: Python dictionaries become association lists with
insertion-order update semantics, SQLModel rows and partial-update payloads
become association lists from field name to a runtime `Value`, the database
session becomes an explicit list of rows threaded through the operations, and
Python exceptions become an `Except PyError` result.
-/

namespace App

/-- A runtime field value of a row or payload: SQL NULL / Python `None`,
integers, strings, datetimes (abstracted as a tick count) and booleans. -/
inductive Value where
  | vnone
  | vint (n : Int)
  | vstr (s : String)
  | vdt (t : Nat)
  | vbool (b : Bool)
deriving DecidableEq, Repr

/-- Python truthiness of a `Value`: `None`, `0`, `""` and `False` are falsy;
any `datetime` object is truthy. -/
def Value.truthy : Value → Bool
  | .vnone => false
  | .vint n => n != 0
  | .vstr s => s != ""
  | .vdt _ => true
  | .vbool b => b

/-- A Python `dict[str, Value]` as an association list in insertion order. -/
abbrev Dict := List (String × Value)

/-- `d.get(k)`: the value of the first (and, for genuine dicts, only) entry
with key `k`. -/
def dictLookup (d : Dict) (k : String) : Option Value :=
  match d.find? (fun p => p.1 == k) with
  | some p => some p.2
  | none => none

/-- `k in d` for a Python dict. -/
def dictHasKey (d : Dict) (k : String) : Bool :=
  (dictLookup d k).isSome

/-- `d[k] = v` on a Python dict: an existing key keeps its position and gets
the new value; a new key is appended at the end. -/
def dictInsert (d : Dict) (k : String) (v : Value) : Dict :=
  if dictHasKey d k then d.map (fun p => if p.1 == k then (k, v) else p)
  else d ++ [(k, v)]

/-- `d.update(u)` on Python dicts: insert the entries of `u` left to right. -/
def dictUpdate (d : Dict) (u : Dict) : Dict :=
  u.foldl (fun acc p => dictInsert acc p.1 p.2) d

/-- A database row / SQLModel instance: every declared column carries a value.
A partial-update payload is the same shape, but holds only its set fields
(pydantic's `model_dump(exclude_unset=True)` is then the list itself). -/
abbrev Row := Dict

/-- `getattr(obj, f)` on a row or payload; on a payload an unset optional
field reads as its declared default `None`. -/
def getattr (r : Row) (f : String) : Value :=
  (dictLookup r f).getD Value.vnone

/-- The SQLModel class seen through `hasattr`: the set of declared columns
(`app/users/models.py`, `app/modules/v1/tasks/models.py` both declare
`id`, audit fields `created_at/created_by/updated_at/updated_by` and
soft-delete fields `deleted_at/deleted_by`). -/
structure Model where
  fields : List String
deriving DecidableEq, Repr

/-- `CommonsDependencies` (`app/core/dependencies.py`): the per-request
identity context; `current_user` and `user_type` both default to `None`. -/
structure CommonsDependencies where
  current_user : Value
  user_type : Value
deriving DecidableEq, Repr

/-- Modelled from the spec: `utils/value.py` (the `UserRoles` enum used by
`_build_ownership_query`) is not under `src/`; the spec and the `Users`
model's `Literal["admin", "user"]` type fix the admin role string. -/
def UserRolesAdmin : Value := Value.vstr "admin"

/-- Per-service configuration: `service_name` plus the `core/config.py`
settings `ownership_field` and `fields_not_modified`. -/
structure ServiceCtx where
  service_name : String
  ownership_field : String
  fields_not_modified : List String
  model : Model
deriving DecidableEq, Repr

/-- The `core/config.py` defaults: ownership field `created_by`, audit-only
fields `updated_at` and `updated_by`. -/
def defaultSettings (service_name : String) (m : Model) : ServiceCtx :=
  { service_name := service_name
    ownership_field := "created_by"
    fields_not_modified := ["updated_at", "updated_by"]
    model := m }

/-- `BaseServices._build_ownership_query`: no commons or no (truthy) current
user or an admin caller yields no ownership predicate; otherwise the predicate
pins `ownership_field` to the caller's id. -/
def build_ownership_query (ownership_field : String)
    (commons : Option CommonsDependencies) : Option Dict :=
  match commons with
  | Option.none => Option.none
  | some c =>
    if !c.current_user.truthy then Option.none
    else if c.user_type == UserRolesAdmin then Option.none
    else some [(ownership_field, c.current_user)]

/-- `BaseServices._build_query`: starts from the caller-supplied filter dict
(a falsy — empty or absent — dict is replaced by a fresh empty one), adds
`deleted_at = None` unless `include_deleted`, then merges the ownership
predicate. -/
def build_query (ownership_field : String) (commons : Option CommonsDependencies)
    (query : Option Dict) (include_deleted : Bool) : Dict :=
  let q0 : Dict :=
    match query with
    | Option.none => []
    | some d => if d.isEmpty then [] else d
  let q1 := if !include_deleted then dictUpdate q0 [("deleted_at", Value.vnone)] else q0
  match build_ownership_query ownership_field commons with
  | some oq => if !oq.isEmpty then dictUpdate q1 oq else q1
  | Option.none => q1

/-- Mirrors `_build_query` while also tracking what the caller-supplied dict
object holds after the call: `query.update(...)` mutates the caller's object
in place, and the local name `query` is rebound to a fresh dict only when the
caller passed a falsy (empty) one, so a non-empty caller dict is the very
object that receives the scoping keys. -/
def build_query_effect (ownership_field : String)
    (commons : Option CommonsDependencies) (query : Dict)
    (include_deleted : Bool) : Dict × Dict :=
  let result := build_query ownership_field commons (some query) include_deleted
  if query.isEmpty then (result, query) else (result, result)

/-! ## The record store (`app/db/base.py`) -/

/-- Python exceptions raised by the service and store layers.
`CoreErrorCode` (`app/core/exceptions.py`) supplies the three domain errors;
`AttributeErr` models a Python `AttributeError` (e.g. `getattr(None, k)`),
`MultipleResultsFound` the SQLAlchemy error of `one_or_none` on several rows,
`IndexErr` a Python `IndexError`. -/
inductive PyError where
  | NotFound (service_name : String) (item : Value)
  | NotModified (service_name : String)
  | Conflict (service_name : String) (item : Value)
  | AttributeErr (attr : String)
  | MultipleResultsFound
  | IndexErr
deriving DecidableEq, Repr

/-- SQLAlchemy `Result.one_or_none`. -/
def one_or_none (rows : List Row) : Except PyError (Option Row) :=
  match rows with
  | [] => Except.ok Option.none
  | [r] => Except.ok (some r)
  | _ :: _ :: _ => Except.error PyError.MultipleResultsFound

/-- One equality filter of `BaseCRUD.build_query_filters` and the query loops
of `get_by_field`/`get_all`: a query key missing from the model
(`hasattr(self.model, key)` false) contributes no filter. -/
def row_matches_query (m : Model) (r : Row) (q : Dict) : Bool :=
  q.all (fun p => !(m.fields.contains p.1) || getattr r p.1 == p.2)

/-- `BaseCRUD.build_query_filters`: `model.id == _id` plus the query's
equality filters. -/
def id_query_filter (m : Model) (_id : Value) (q : Dict) (r : Row) : Bool :=
  getattr r "id" == _id && row_matches_query m r q

/-- `BaseCRUD.get_by_id`: select by id and query filters, `one_or_none`
(`session.refresh` does not change the row's columns). -/
def crud_get_by_id (m : Model) (db : List Row) (_id : Value) (q : Dict) :
    Except PyError (Option Row) :=
  one_or_none (db.filter (id_query_filter m _id q))

/-- The row filter of `BaseCRUD.get_by_field`: the named field equals the
searched value, conjoined with the query's equality filters. -/
def field_query_filter (m : Model) (field_name : String) (data : Value)
    (q : Dict) (r : Row) : Bool :=
  getattr r field_name == data && row_matches_query m r q

/-- `BaseCRUD.get_by_field`: `return records if records else None` — an empty
result set is collapsed to Python `None`. -/
def crud_get_by_field (m : Model) (db : List Row) (data : Value)
    (field_name : String) (q : Dict) : Option (List Row) :=
  let records := db.filter (field_query_filter m field_name data q)
  if records.isEmpty then Option.none else some records

/-- The id column of the next inserted row: the backing store's autoincrement
primary key. -/
def next_id (db : List Row) : Int :=
  1 + db.foldl (fun acc r => max acc (match getattr r "id" with
    | Value.vint n => n
    | _ => 0)) 0

/-- `BaseCRUD.save` (`session.add` + `commit` + `refresh`): the stored row
holds every declared column — the payload's set fields, `None` for the rest —
and the store assigns the autoincrement id when the payload carries none.
Returns the new table and the refreshed row. -/
def crud_save (m : Model) (db : List Row) (data : Row) : List Row × Row :=
  let filled : Row := m.fields.foldl
    (fun r f => if dictHasKey r f then r else dictInsert r f Value.vnone) data
  let row := if (getattr filled "id").truthy then filled
    else dictInsert filled "id" (Value.vint (next_id db))
  (db ++ [row], row)

/-- `unique_field: str | list` as passed to `save_unique`/`_check_unique`. -/
inductive FieldSel where
  | one (s : String)
  | many (l : List String)
deriving DecidableEq, Repr

/-- Python truthiness of a `unique_field` argument (`if unique_field:`):
`None` is handled by `Option`, an empty string or empty list is falsy. -/
def fieldsel_truthy : FieldSel → Bool
  | .one s => s != ""
  | .many l => !l.isEmpty

/-- The Python expression `field in data` of `BaseCRUD.save_unique` where
`data` is a pydantic (SQLModel) instance: membership falls back to the
model's `__iter__`, which yields `(name, value)` tuples, and a string is
never equal to such a tuple — so the test is `False` for every field. -/
def py_field_in_model (_field : String) (_data : Row) : Bool := false

/-- `BaseCRUD.save_unique`: builds equality filters from the unique fields
(for a list, only fields passing `field in data`; for a single name, always),
keeps the table and returns `False` (here `Option.none`) when any row matching_rows
all filters, otherwise inserts via `save`. -/
def crud_save_unique (m : Model) (db : List Row) (data : Row)
    (unique_field : FieldSel) : List Row × Option Row :=
  let filters : List (String × Value) :=
    match unique_field with
    | .many l => (l.filter (fun f => py_field_in_model f data)).map
        (fun f => (f, getattr data f))
    | .one s => [(s, getattr data s)]
  let existing := (db.filter
    (fun r => filters.all (fun p => getattr r p.1 == p.2))).head?
  match existing with
  | some _ => (db, Option.none)
  | Option.none =>
    let saved := crud_save m db data
    (saved.1, some saved.2)

/-- `Row.sqlmodel_update(data)`: set each field of the dumped payload. -/
def row_update (r : Row) (data : Row) : Row :=
  dictUpdate r data

/-- `BaseCRUD.update_by_id`: select by id + query filters with `one_or_none`;
no match keeps the table and returns `None`; the unique match is updated in
place with the payload's set fields. -/
def crud_update_by_id (m : Model) (db : List Row) (_id : Value) (data : Row)
    (q : Dict) : Except PyError (List Row × Option Row) :=
  let pred := id_query_filter m _id q
  match db.filter pred with
  | [] => Except.ok (db, Option.none)
  | [r] => Except.ok
      (db.map (fun x => if pred x then row_update x data else x),
       some (row_update r data))
  | _ :: _ :: _ => Except.error PyError.MultipleResultsFound

/-- Case-insensitive substring test: SQL `ilike '%pat%'`. -/
def str_contains_ci (hay pat : String) : Bool :=
  let h := hay.toLower.toList
  let p := pat.toLower.toList
  (List.range (h.length + 1)).any (fun i => p.isPrefixOf (h.drop i))

/-- `column.ilike(f"%{search}%")` on a row value; only text columns are
searched by the models of this repository. -/
def value_ilike (v : Value) (pat : String) : Bool :=
  match v with
  | Value.vstr s => str_contains_ci s pat
  | _ => false

/-- The OR-group of search conditions of `BaseCRUD.get_all`: applies only
when `search` and `search_in` are both truthy and at least one searched
field exists on the model; otherwise no constraint. -/
def search_filter (m : Model) (search : Option String)
    (search_in : Option (List String)) (r : Row) : Bool :=
  match search, search_in with
  | some s, some fs =>
    if s == "" || fs.isEmpty then true
    else
      let conds := fs.filter (fun f => m.fields.contains f)
      if conds.isEmpty then true
      else conds.any (fun f => value_ilike (getattr r f) s)
  | _, _ => true

/-- A deterministic total order on column values standing for the backing
store's ORDER BY comparison: ranked by kind, then by the natural order
within each kind. -/
def value_le (a b : Value) : Bool :=
  match a, b with
  | Value.vnone, _ => true
  | Value.vbool x, Value.vbool y => !x || y
  | Value.vint x, Value.vint y => decide (x ≤ y)
  | Value.vdt x, Value.vdt y => decide (x ≤ y)
  | Value.vstr x, Value.vstr y => decide (x ≤ y)
  | Value.vbool _, Value.vnone => false
  | Value.vbool _, _ => true
  | Value.vint _, Value.vnone => false
  | Value.vint _, Value.vbool _ => false
  | Value.vint _, _ => true
  | Value.vdt _, Value.vstr _ => true
  | Value.vdt _, _ => false
  | Value.vstr _, _ => false

/-- Insert a row into a list sorted by `le`. -/
def insert_sorted (le : Row → Row → Bool) (r : Row) : List Row → List Row
  | [] => [r]
  | x :: xs => if le r x then r :: x :: xs else x :: insert_sorted le r xs

/-- The store's ORDER BY: a deterministic insertion sort of the matching
rows. -/
def sort_rows (le : Row → Row → Bool) (l : List Row) : List Row :=
  l.foldr (insert_sorted le) []

/-- The row comparison of `get_all`'s `order_by` clause: by the `sort_by`
column, descending exactly when `order_by == "desc"`. -/
def order_le (sort_by : String) (order_by : Option String) (a b : Row) : Bool :=
  if order_by == some "desc" then value_le (getattr b sort_by) (getattr a sort_by)
  else value_le (getattr a sort_by) (getattr b sort_by)

/-- `math.ceil(a / b)` on integers (`b ≠ 0`), as evaluated by Python. -/
def py_ceil_div (a b : Int) : Int :=
  -(Int.fdiv (-a) b)

/-- The dictionary returned by `BaseCRUD.get_all`. -/
structure PaginationResult where
  records_per_page : Nat
  total_items : Nat
  total_page : Int
  results : List Row
deriving DecidableEq, Repr

/-- The conjunction of `get_all`'s query equality filters and its search
OR-group on one row. -/
def get_all_filter (m : Model) (q : Dict) (search : Option String)
    (search_in : Option (List String)) (r : Row) : Bool :=
  row_matches_query m r q && search_filter m search search_in r

/-- The matching rows of `get_all` after the optional ORDER BY (applied when
`sort_by` is truthy and names a declared column). -/
def get_all_sorted (m : Model) (db : List Row) (q : Dict)
    (search : Option String) (search_in : Option (List String))
    (sort_by order_by : Option String) : List Row :=
  match sort_by with
  | some sb =>
    if sb != "" && m.fields.contains sb then
      sort_rows (order_le sb order_by)
        (db.filter (get_all_filter m q search search_in))
    else db.filter (get_all_filter m q search search_in)
  | Option.none => db.filter (get_all_filter m q search search_in)

/-- The row window of `get_all`: OFFSET `(page-1)*limit` and LIMIT `limit`
apply only when both are truthy (nonzero). The claims constrain the row list
only for `page >= 1`, `limit > 0`; what a negative OFFSET/LIMIT returns is
backend-specific and modelled by clamping. -/
def get_all_paged (sorted : List Row) (page limit : Option Int) : List Row :=
  match page, limit with
  | some p, some l =>
    if p != 0 && l != 0 then
      (sorted.drop ((p - 1) * l).toNat).take l.toNat
    else sorted
  | _, _ => sorted

/-- `total_page = math.ceil(total/limit) if limit else 1`. -/
def get_all_total_page (total_records : Nat) (limit : Option Int) : Int :=
  match limit with
  | some l => if l != 0 then py_ceil_div (Int.ofNat total_records) l else 1
  | Option.none => 1

/-- `BaseCRUD.get_all`: equality filters from the query (unknown keys
ignored), the optional search OR-group, ORDER BY, a count of all matching
rows taken before pagination, then the OFFSET/LIMIT window. -/
def crud_get_all (m : Model) (db : List Row) (q : Dict)
    (search : Option String) (search_in : Option (List String))
    (page limit : Option Int) (sort_by : Option String)
    (order_by : Option String) : PaginationResult :=
  let paged := get_all_paged
    (get_all_sorted m db q search search_in sort_by order_by) page limit
  { records_per_page := paged.length
    total_items := (db.filter (get_all_filter m q search search_in)).length
    total_page := get_all_total_page
      (db.filter (get_all_filter m q search search_in)).length limit
    results := paged }

/-! ## The service layer (`app/core/services.py`) -/

/-- `BaseServices.get_by_id`: scope with `_build_query` (no extra filters),
fetch, and raise `NotFound` on a falsy result unless `ignore_error`. -/
def service_get_by_id (ctx : ServiceCtx) (db : List Row) (_id : Value)
    (commons : Option CommonsDependencies) (ignore_error include_deleted : Bool) :
    Except PyError (Option Row) :=
  match crud_get_by_id ctx.model db _id
      (build_query ctx.ownership_field commons Option.none include_deleted) with
  | Except.error e => Except.error e
  | Except.ok Option.none =>
    if ignore_error then Except.ok Option.none
    else Except.error (PyError.NotFound ctx.service_name _id)
  | Except.ok (some r) => Except.ok (some r)

/-- `BaseServices.get_all`: scope the caller-supplied filter dict with
`_build_query`, then delegate to the store. -/
def service_get_all (ctx : ServiceCtx) (db : List Row)
    (commons : Option CommonsDependencies) (query : Option Dict)
    (search : Option String) (search_in : Option (List String))
    (page limit : Option Int) (sort_by : Option String)
    (order_by : Option String) (include_deleted : Bool) : PaginationResult :=
  let q := build_query ctx.ownership_field commons query include_deleted
  crud_get_all ctx.model db q search search_in page limit sort_by order_by

/-- `BaseServices.get_by_field`: scope, fetch, and raise `NotFound` on a
falsy (absent) result unless `ignore_error`. -/
def service_get_by_field (ctx : ServiceCtx) (db : List Row) (data : Value)
    (field_name : String) (commons : Option CommonsDependencies)
    (ignore_error include_deleted : Bool) : Except PyError (Option (List Row)) :=
  let q := build_query ctx.ownership_field commons Option.none include_deleted
  match crud_get_by_field ctx.model db data field_name q with
  | Option.none =>
    if ignore_error then Except.ok Option.none
    else Except.error (PyError.NotFound ctx.service_name data)
  | some l => Except.ok (some l)

/-- The field list behind a `unique_field` argument
(`unique_field = [unique_field] if type(unique_field) is str else ...`). -/
def unique_fields_list : FieldSel → List String
  | .one s => [s]
  | .many l => l

/-- The query loop of `BaseServices._check_unique`: each unique field whose
value on the payload is truthy contributes an exact-match entry. -/
def build_unique_query (data : Row) (fields : List String) : Dict :=
  fields.foldl
    (fun q f => if (getattr data f).truthy then dictInsert q f (getattr data f)
      else q) []

/-- Modelled from the spec: `BaseCRUD.count_documents` is called by
`BaseServices._check_unique` but no such method exists in `app/db/base.py`;
the spec says `checkUnique` "counts matches in store" for the exact-match
predicate it built. -/
def count_documents (db : List Row) (q : Dict) : Nat :=
  (db.filter (fun r => q.all (fun p => getattr r p.1 == p.2))).length

/-- `next(iter(query.values()))` on a non-empty dict; the `vnone` default is
never reached by `_check_unique`, which guards on a non-empty query. -/
def first_value : Dict → Value
  | [] => Value.vnone
  | p :: _ => p.2

/-- `BaseServices._check_unique`: build the truthy-field predicate; an empty
predicate short-circuits to `False`; zero matches is `True`; otherwise
`False` under `ignore_error` and a `Conflict` naming the predicate's first
value without it. -/
def service_check_unique (ctx : ServiceCtx) (db : List Row) (data : Row)
    (unique_field : FieldSel) (ignore_error : Bool) : Except PyError Bool :=
  let q := build_unique_query data (unique_fields_list unique_field)
  if q.isEmpty then Except.ok false
  else
    let total_items := count_documents db q
    if total_items == 0 then Except.ok true
    else if ignore_error then Except.ok false
    else Except.error (PyError.Conflict ctx.service_name (first_value q))

/-- `unique_field[0]` / `unique_field` as read by `BaseServices.save_unique`
when naming the conflicting value (an empty list raises `IndexError`). -/
def first_unique_value (data : Row) : FieldSel → Except PyError Value
  | .one s => Except.ok (getattr data s)
  | .many [] => Except.error PyError.IndexErr
  | .many (f :: _) => Except.ok (getattr data f)

/-- `BaseServices.save_unique`: delegate to the store's `save_unique`; on a
falsy result return `False` under `ignore_error` or raise `Conflict` naming
the first unique field's value on the payload. -/
def service_save_unique (ctx : ServiceCtx) (db : List Row) (data : Row)
    (unique_field : FieldSel) (ignore_error : Bool) :
    Except PyError (List Row × Option Row) :=
  let result := crud_save_unique ctx.model db data unique_field
  match result.2 with
  | Option.none =>
    if ignore_error then Except.ok (result.1, Option.none)
    else do
      let v ← first_unique_value data unique_field
      Except.error (PyError.Conflict ctx.service_name v)
  | some r => Except.ok (result.1, some r)

/-- The generator of `BaseServices.update_by_id`'s `is_modified` check:
`any(getattr(item, key) != value and key not in settings.fields_not_modified
for key, value in data.model_dump(exclude_unset=True).items())` — when the
earlier `get_by_id` returned `None` (ignored `NotFound`), the first evaluated
`getattr(None, key)` raises `AttributeError`. -/
def is_modified_any (item : Option Row) (fields_not_modified : List String) :
    List (String × Value) → Except PyError Bool
  | [] => Except.ok false
  | (k, v) :: rest => do
    let cur ← (match item with
      | Option.none => Except.error (PyError.AttributeErr k)
      | some r => Except.ok (getattr r k))
    if cur != v && !(fields_not_modified.contains k) then Except.ok true
    else is_modified_any item fields_not_modified rest

/-- The tail of `BaseServices.update_by_id` after the modification check: the
optional `_check_unique` call (`if unique_field:` — a falsy `unique_field`
skips it) followed by the store's `update_by_id`. -/
def service_update_tail (ctx : ServiceCtx) (db : List Row) (_id : Value)
    (data : Row) (unique_field : Option FieldSel) (ignore_error : Bool)
    (q : Dict) : Except PyError (List Row × Option Row) :=
  match (match unique_field with
    | some uf =>
      if fieldsel_truthy uf then
        (service_check_unique ctx db data uf ignore_error).map (fun _x => ())
      else Except.ok ()
    | Option.none => Except.ok ()) with
  | Except.error e => Except.error e
  | Except.ok _ => crud_update_by_id ctx.model db _id data q

/-- `BaseServices.update_by_id`: rebuild the scoping query, resolve the
existing row via `get_by_id` (honouring `ignore_error`), run the
modification check (whose generator evaluates `getattr(item, key)` on the
possibly-`None` item), then the tail above. Returns the (possibly unchanged)
table with the store's result. -/
def service_update_by_id (ctx : ServiceCtx) (db : List Row) (_id : Value)
    (data : Row) (commons : Option CommonsDependencies)
    (unique_field : Option FieldSel)
    (check_modified ignore_error include_deleted : Bool) :
    Except PyError (List Row × Option Row) :=
  let q := build_query ctx.ownership_field commons Option.none include_deleted
  match service_get_by_id ctx db _id commons ignore_error include_deleted with
  | Except.error e => Except.error e
  | Except.ok item =>
    if check_modified then
      match is_modified_any item ctx.fields_not_modified data with
      | Except.error e => Except.error e
      | Except.ok is_modified =>
        if !is_modified then
          if !ignore_error then
            Except.error (PyError.NotModified ctx.service_name)
          else Except.ok (db, Option.none)
        else service_update_tail ctx db _id data unique_field ignore_error q
    else service_update_tail ctx db _id data unique_field ignore_error q

/-- `BaseServices.soft_delete_by_id`: require the model to declare the
soft-delete columns; build the payload `deleted_at = now`,
`deleted_by = current_user` (both assignments mark their field as set) and
route it through `update_by_id` with its default `check_modified=True`. -/
def service_soft_delete_by_id (ctx : ServiceCtx) (db : List Row) (_id : Value)
    (commons : Option CommonsDependencies) (ignore_error : Bool)
    (now : Value) : Except PyError (List Row × Option Row) :=
  if !(ctx.model.fields.contains "deleted_at")
      || !(ctx.model.fields.contains "deleted_by") then
    Except.error (PyError.AttributeErr "deleted_at")
  else
    let current_user := match commons with
      | some c => c.current_user
      | Option.none => Value.vnone
    let data : Row := [("deleted_at", now), ("deleted_by", current_user)]
    service_update_by_id ctx db _id data commons Option.none true ignore_error false

/-! ## Concrete fixtures -/

/-- The `Tasks` entity of `app/modules/v1/tasks/models.py`. -/
def tasksModel : Model :=
  ⟨["id", "summary", "description", "status", "created_at", "created_by",
    "updated_at", "updated_by", "deleted_at", "deleted_by"]⟩

/-- The `Users` entity of `app/users/models.py`. -/
def usersModel : Model :=
  ⟨["id", "fullname", "email", "phone_number", "password", "type",
    "created_at", "created_by", "updated_at", "updated_by", "deleted_at",
    "deleted_by"]⟩

/-- The task service (`app/modules/v1/tasks/services.py`) under the default
`core/config.py` settings. -/
def tasksCtx : ServiceCtx := defaultSettings "tasks" tasksModel

/-- The user service (`app/users/services.py`) under the default settings. -/
def usersCtx : ServiceCtx := defaultSettings "users" usersModel

/-- The spec's soft-delete invariant on a row: `deleted_at` and `deleted_by`
are set together, never independently. -/
def soft_delete_invariant (r : Row) : Prop :=
  (getattr r "deleted_at" = Value.vnone ↔ getattr r "deleted_by" = Value.vnone)

instance (r : Row) : Decidable (soft_delete_invariant r) := by
  unfold soft_delete_invariant; infer_instance

/-- A stored user row with email `a@b`. -/
def userRowAB : Row :=
  [("id", Value.vint 1), ("email", Value.vstr "a@b"),
   ("deleted_at", Value.vnone), ("deleted_by", Value.vnone)]

/-- A candidate user payload whose only set field is email `c@d`. -/
def userDataCD : Row := [("email", Value.vstr "c@d")]

/-- A stored user row whose email is the empty string. -/
def userRowEmptyEmail : Row := [("id", Value.vint 1), ("email", Value.vstr "")]

/-- A candidate payload whose email is set to the empty string — a non-null
value that Python treats as falsy. -/
def userDataEmptyEmail : Row := [("email", Value.vstr "")]

/-- A live task row owned by user 7. -/
def taskRowLive : Row :=
  [("id", Value.vint 1), ("summary", Value.vstr "write spec"),
   ("created_by", Value.vint 7), ("deleted_at", Value.vnone),
   ("deleted_by", Value.vnone)]

/-- `taskRowLive` after a soft delete performed with no current user:
`deleted_at` is set but `deleted_by` stays `None`. -/
def taskRowSysDeleted : Row :=
  [("id", Value.vint 1), ("summary", Value.vstr "write spec"),
   ("created_by", Value.vint 7), ("deleted_at", Value.vdt 100),
   ("deleted_by", Value.vnone)]

/-- The identity context of a non-admin user with id 7. -/
def user7 : CommonsDependencies := ⟨Value.vint 7, Value.vstr "user"⟩

/-- An internal identity context (`CommonsDependencies.from_session`): no
current user, no user type. -/
def systemCommons : CommonsDependencies := ⟨Value.vnone, Value.vnone⟩

/-- Two live task rows with distinct ids (for pagination scenarios). -/
def twoTaskRows : List Row :=
  [[("id", Value.vint 1), ("deleted_at", Value.vnone)],
   [("id", Value.vint 2), ("deleted_at", Value.vnone)]]

/-- Twenty-five live task rows with distinct ids (the spec's pagination
scenario). -/
def twentyFiveTasks : List Row :=
  (List.range 25).map (fun i =>
    [("id", Value.vint (Int.ofNat (i + 1))), ("deleted_at", Value.vnone)])

/-! ## Dictionary lemmas -/

theorem dictLookup_nil (k : String) : dictLookup [] k = Option.none := rfl

theorem dictLookup_cons (p : String × Value) (d : Dict) (k : String) :
    dictLookup (p :: d) k =
      (if p.1 == k then some p.2 else dictLookup d k) := by
  by_cases h : p.1 == k <;> simp [dictLookup, List.find?, h]

theorem dictHasKey_cons (p : String × Value) (d : Dict) (k : String) :
    dictHasKey (p :: d) k = (p.1 == k || dictHasKey d k) := by
  by_cases h : p.1 == k <;> simp [dictHasKey, dictLookup_cons, h]

theorem dictLookup_append_of_none (d₁ d₂ : Dict) (k : String)
    (h : dictLookup d₁ k = Option.none) :
    dictLookup (d₁ ++ d₂) k = dictLookup d₂ k := by
  induction d₁ with
  | nil => simp
  | cons p d ih =>
    rw [dictLookup_cons] at h
    by_cases hp : (p.1 == k) = true
    · simp [hp] at h
    · rw [if_neg hp] at h
      rw [List.cons_append, dictLookup_cons, if_neg hp]
      exact ih h

theorem dictLookup_append_of_some (d₁ d₂ : Dict) (k : String) (v : Value)
    (h : dictLookup d₁ k = some v) :
    dictLookup (d₁ ++ d₂) k = some v := by
  induction d₁ with
  | nil => simp [dictLookup] at h
  | cons p d ih =>
    rw [dictLookup_cons] at h
    rw [List.cons_append, dictLookup_cons]
    by_cases hp : (p.1 == k) = true
    · rw [if_pos hp] at h ⊢; exact h
    · rw [if_neg hp] at h ⊢; exact ih h

theorem dictLookup_map_rewrite_ne (d : Dict) (k k' : String) (v : Value)
    (hne : k' ≠ k) :
    dictLookup (d.map (fun p => if p.1 == k then (k, v) else p)) k' =
      dictLookup d k' := by
  induction d with
  | nil => rfl
  | cons p d ih =>
    rw [List.map_cons, dictLookup_cons, dictLookup_cons]
    by_cases hp : (p.1 == k) = true
    · rw [if_pos hp]
      have hpk : p.1 = k := by simpa using hp
      have hkk' : (k == k') = false := by
        simp only [beq_eq_false_iff_ne, ne_eq]
        exact fun hc => hne hc.symm
      have hpk' : (p.1 == k') = false := by rw [hpk]; exact hkk'
      simp only [hkk', hpk', Bool.false_eq_true, ite_false]
      exact ih
    · rw [if_neg hp]
      by_cases hp' : (p.1 == k') = true
      · rw [if_pos hp', if_pos hp']
      · rw [if_neg hp', if_neg hp']
        exact ih

theorem dictLookup_dictInsert_self (d : Dict) (k : String) (v : Value) :
    dictLookup (dictInsert d k v) k = some v := by
  unfold dictInsert
  by_cases h : dictHasKey d k = true
  · rw [if_pos h]
    induction d with
    | nil => simp [dictHasKey, dictLookup] at h
    | cons p d ih =>
      rw [dictHasKey_cons] at h
      by_cases hp : (p.1 == k) = true
      · have hk : p.1 = k := by simpa using hp
        simp [List.map_cons, hk, dictLookup_cons]
      · have h' : dictHasKey d k = true := by
          rcases (by simpa using h : (p.1 == k) = true ∨ dictHasKey d k = true)
            with hc | hc
          · exact absurd hc hp
          · exact hc
        rw [List.map_cons, if_neg hp, dictLookup_cons, if_neg hp]
        exact ih h'
  · rw [if_neg h]
    have hnone : dictLookup d k = Option.none := by
      cases hd : dictLookup d k with
      | none => rfl
      | some w => rw [dictHasKey, hd] at h; simp at h
    rw [dictLookup_append_of_none _ _ _ hnone, dictLookup_cons]
    simp

theorem dictLookup_dictInsert_ne (d : Dict) (k k' : String) (v : Value)
    (hne : k' ≠ k) : dictLookup (dictInsert d k v) k' = dictLookup d k' := by
  unfold dictInsert
  by_cases h : dictHasKey d k = true
  · rw [if_pos h]
    exact dictLookup_map_rewrite_ne d k k' v hne
  · rw [if_neg h]
    cases hd : dictLookup d k' with
    | some w => exact dictLookup_append_of_some _ _ _ _ hd
    | none =>
      have h1 : dictLookup (d ++ [(k, v)]) k' = dictLookup [(k, v)] k' :=
        dictLookup_append_of_none _ _ _ hd
      have h2 : dictLookup [(k, v)] k' = Option.none := by
        rw [dictLookup_cons, if_neg (show ¬((k == k') = true) by
          simp only [beq_iff_eq]
          exact fun hc => hne hc.symm)]
        rfl
      rw [h1, h2]

theorem dictHasKey_dictInsert (d : Dict) (k k' : String) (v : Value) :
    dictHasKey (dictInsert d k v) k' = (dictHasKey d k' || k' == k) := by
  by_cases hne : k' = k
  · subst hne
    simp [dictHasKey, dictLookup_dictInsert_self]
  · rw [dictHasKey, dictLookup_dictInsert_ne _ _ _ _ hne]
    simp [dictHasKey, hne]

theorem dictUpdate_single (d : Dict) (k : String) (v : Value) :
    dictUpdate d [(k, v)] = dictInsert d k v := rfl

/-! ## Row-matching lemmas -/

theorem row_matches_query_lookup {m : Model} {r : Row} {q : Dict}
    (hall : row_matches_query m r q = true) {k : String} {v : Value}
    (hlk : dictLookup q k = some v) (hf : m.fields.contains k = true) :
    getattr r k = v := by
  unfold dictLookup at hlk
  cases hfind : q.find? (fun p => p.1 == k) with
  | none => rw [hfind] at hlk; exact absurd hlk (by simp)
  | some p =>
    rw [hfind] at hlk
    have hp2 : p.2 = v := by simpa using hlk
    have hmem : p ∈ q := List.mem_of_find?_eq_some hfind
    have hpk : p.1 = k := by simpa using List.find?_some hfind
    unfold row_matches_query at hall
    rw [List.all_eq_true] at hall
    have hcond := hall p hmem
    rw [hpk] at hcond
    have hf' : k ∈ m.fields := by simpa using hf
    simp only [Bool.or_eq_true, Bool.not_eq_true', beq_iff_eq] at hcond
    rcases hcond with hcase | hcase
    · simp at hcase
      exact absurd hf' hcase
    · rw [hp2] at hcase
      exact hcase

/-! ## `is_modified` characterization -/

theorem is_modified_any_some (r : Row) (fnm : List String)
    (l : List (String × Value)) :
    is_modified_any (some r) fnm l =
      Except.ok (l.any (fun p => getattr r p.1 != p.2 && !(fnm.contains p.1))) := by
  induction l with
  | nil => rfl
  | cons p rest ih =>
    obtain ⟨k, v⟩ := p
    by_cases h : (getattr r k != v && !(fnm.contains k)) = true
    · simp only [is_modified_any, bind, Except.bind]
      rw [if_pos h]
      simp only [List.any_cons, h, Bool.true_or]
    · simp only [is_modified_any, bind, Except.bind]
      rw [if_neg h, ih]
      simp only [List.any_cons,
        (by simpa using h : (getattr r k != v && !(fnm.contains k)) = false),
        Bool.false_or]

/-! ## Sorting lemmas -/

theorem mem_insert_sorted (le : Row → Row → Bool) (r a : Row)
    (l : List Row) : a ∈ insert_sorted le r l ↔ a = r ∨ a ∈ l := by
  induction l with
  | nil => simp [insert_sorted]
  | cons x xs ih =>
    by_cases h : le r x
    · simp [insert_sorted, h]
    · simp only [insert_sorted, h, Bool.false_eq_true, ite_false,
        List.mem_cons, ih]
      tauto

theorem mem_sort_rows (le : Row → Row → Bool) (a : Row) (l : List Row) :
    a ∈ sort_rows le l ↔ a ∈ l := by
  induction l with
  | nil => simp [sort_rows]
  | cons x xs ih =>
    simp only [sort_rows, List.foldr_cons, List.mem_cons]
    rw [mem_insert_sorted]
    unfold sort_rows at ih
    rw [ih]

theorem length_insert_sorted (le : Row → Row → Bool) (r : Row)
    (l : List Row) : (insert_sorted le r l).length = l.length + 1 := by
  induction l with
  | nil => rfl
  | cons x xs ih =>
    by_cases h : le r x <;> simp [insert_sorted, h, ih]

theorem length_sort_rows (le : Row → Row → Bool) (l : List Row) :
    (sort_rows le l).length = l.length := by
  induction l with
  | nil => rfl
  | cons x xs ih =>
    show (insert_sorted le x (sort_rows le xs)).length = xs.length + 1
    rw [length_insert_sorted, ih]

/-! ## Further helper lemmas -/

theorem dictHasKey_append (d₁ d₂ : Dict) (k : String) :
    dictHasKey (d₁ ++ d₂) k = (dictHasKey d₁ k || dictHasKey d₂ k) := by
  cases hd : dictLookup d₁ k with
  | some w =>
    rw [dictHasKey, dictLookup_append_of_some _ _ _ _ hd]
    simp [dictHasKey, hd]
  | none =>
    rw [dictHasKey, dictLookup_append_of_none _ _ _ hd]
    simp [dictHasKey, hd]

theorem dictInsert_ne_nil (d : Dict) (k : String) (v : Value) :
    dictInsert d k v ≠ [] := by
  unfold dictInsert
  by_cases h : dictHasKey d k = true
  · rw [if_pos h]
    cases d with
    | nil => simp [dictHasKey, dictLookup] at h
    | cons p t => simp
  · rw [if_neg h]
    simp

theorem truthy_ne_vnone {v : Value} (h : v.truthy = true) : v ≠ Value.vnone := by
  intro hv
  rw [hv] at h
  simp [Value.truthy] at h

theorem row_matches_query_iff (m : Model) (r : Row) (q : Dict) :
    row_matches_query m r q = true ↔
      ∀ p ∈ q, p.1 ∈ m.fields → getattr r p.1 = p.2 := by
  unfold row_matches_query
  rw [List.all_eq_true]
  constructor
  · intro h p hp hf
    have hc := h p hp
    simp only [Bool.or_eq_true, Bool.not_eq_true', beq_iff_eq] at hc
    rcases hc with hc | hc
    · simp at hc
      exact absurd hf hc
    · exact hc
  · intro h p hp
    simp only [Bool.or_eq_true, Bool.not_eq_true', beq_iff_eq]
    by_cases hf : p.1 ∈ m.fields
    · exact Or.inr (h p hp hf)
    · exact Or.inl (by simpa using hf)

theorem one_or_none_of_eq {rows : List Row} {r : Row} (h : rows = [r]) :
    one_or_none rows = Except.ok (some r) := by
  rw [h]
  rfl

theorem one_or_none_ok_some {rows : List Row} {r : Row}
    (h : one_or_none rows = Except.ok (some r)) : rows = [r] := by
  unfold one_or_none at h
  match rows, h with
  | [x], h =>
    have : x = r := by simpa using h
    rw [this]

theorem filter_decomp (p : Row → Bool) (db₁ db₂ : List Row) (r : Row)
    (h1 : ∀ x ∈ db₁, p x = false) (h2 : ∀ x ∈ db₂, p x = false)
    (hr : p r = true) : (db₁ ++ r :: db₂).filter p = [r] := by
  rw [List.filter_append, List.filter_cons, hr]
  rw [List.filter_eq_nil_iff.mpr (by intro a ha; simp [h1 a ha]),
    List.filter_eq_nil_iff.mpr (by intro a ha; simp [h2 a ha])]
  simp

theorem map_keep_of_false (p : Row → Bool) (f : Row → Row) (l : List Row)
    (h : ∀ x ∈ l, p x = false) :
    l.map (fun x => if p x then f x else x) = l := by
  induction l with
  | nil => rfl
  | cons a t ih =>
    rw [List.map_cons, if_neg (by simp [h a (by simp)]),
      ih (fun x hx => h x (by simp [hx]))]

theorem map_update_decomp (p : Row → Bool) (f : Row → Row)
    (db₁ db₂ : List Row) (r : Row)
    (h1 : ∀ x ∈ db₁, p x = false) (h2 : ∀ x ∈ db₂, p x = false)
    (hr : p r = true) :
    (db₁ ++ r :: db₂).map (fun x => if p x then f x else x) =
      db₁ ++ f r :: db₂ := by
  rw [List.map_append, List.map_cons, if_pos hr, map_keep_of_false p f db₁ h1,
    map_keep_of_false p f db₂ h2]

theorem build_unique_query_go (data : Row) (fields : List String) :
    ∀ acc : Dict, fields.Nodup → (∀ f ∈ fields, dictHasKey acc f = false) →
      fields.foldl (fun q f => if (getattr data f).truthy then
          dictInsert q f (getattr data f) else q) acc
        = acc ++ (fields.filter (fun f => (getattr data f).truthy)).map
            (fun f => (f, getattr data f)) := by
  induction fields with
  | nil => intro acc _ _; simp
  | cons f fs ih =>
    intro acc hnd hdisj
    have hfnd : fs.Nodup := (List.nodup_cons.mp hnd).2
    have hfmem : f ∉ fs := (List.nodup_cons.mp hnd).1
    rw [List.foldl_cons, List.filter_cons]
    by_cases ht : (getattr data f).truthy = true
    · rw [if_pos ht, if_pos ht]
      have hacc : dictInsert acc f (getattr data f) =
          acc ++ [(f, getattr data f)] := by
        unfold dictInsert
        rw [if_neg (by rw [hdisj f (by simp)]; simp)]
      have hdisj' : ∀ g ∈ fs,
          dictHasKey (acc ++ [(f, getattr data f)]) g = false := by
        intro g hg
        rw [dictHasKey_append, hdisj g (by simp [hg])]
        have hgf : (f == g) = false := by
          simp only [beq_eq_false_iff_ne, ne_eq]
          intro hc
          exact hfmem (hc ▸ hg)
        simp [dictHasKey, dictLookup, List.find?, hgf]
      rw [hacc, ih (acc ++ [(f, getattr data f)]) hfnd hdisj',
        List.map_cons, List.append_assoc]
      rfl
    · rw [if_neg ht, if_neg ht]
      exact ih acc hfnd (fun g hg => hdisj g (by simp [hg]))

theorem build_unique_query_eq (data : Row) (fields : List String)
    (hnd : fields.Nodup) :
    build_unique_query data fields =
      (fields.filter (fun f => (getattr data f).truthy)).map
        (fun f => (f, getattr data f)) := by
  unfold build_unique_query
  rw [build_unique_query_go data fields [] hnd (by intro f _; rfl)]
  rfl

/-! ## Claim C2 -/

/-- C2 (amended): `_check_unique` builds its exact-match predicate from the
truthy — not merely non-null — values of the unique fields on the candidate;
an empty predicate short-circuits to false without consulting the store;
otherwise zero matches yields true, a positive match count yields false under
`ignore_error` and otherwise a `Conflict` naming the first truthy field's
value on the candidate. -/
theorem C2_check_unique_truthy (ctx : ServiceCtx) (db : List Row) (data : Row)
    (uf : FieldSel) (ignore_error : Bool)
    (hnd : (unique_fields_list uf).Nodup) :
    ((unique_fields_list uf).filter (fun f => (getattr data f).truthy) = [] →
      service_check_unique ctx db data uf ignore_error = Except.ok false)
    ∧ (∀ f0 fs,
        (unique_fields_list uf).filter (fun f => (getattr data f).truthy)
          = f0 :: fs →
        (count_documents db
            ((f0 :: fs).map (fun f => (f, getattr data f))) = 0 →
          service_check_unique ctx db data uf ignore_error = Except.ok true)
        ∧ (0 < count_documents db
              ((f0 :: fs).map (fun f => (f, getattr data f))) →
            ignore_error = true →
            service_check_unique ctx db data uf ignore_error
              = Except.ok false)
        ∧ (0 < count_documents db
              ((f0 :: fs).map (fun f => (f, getattr data f))) →
            ignore_error = false →
            service_check_unique ctx db data uf ignore_error
              = Except.error
                  (PyError.Conflict ctx.service_name (getattr data f0)))) := by
  have hq := build_unique_query_eq data (unique_fields_list uf) hnd
  constructor
  · intro hnil
    unfold service_check_unique
    rw [hq, hnil]
    rfl
  · intro f0 fs hcons
    have hemp : ((f0 :: fs).map (fun f => (f, getattr data f))).isEmpty
        = false := by simp
    refine ⟨?_, ?_, ?_⟩
    · intro hzero
      unfold service_check_unique
      rw [hq, hcons]
      simp only []
      rw [hemp, hzero]
      rfl
    · intro hpos hie
      unfold service_check_unique
      rw [hq, hcons]
      simp only []
      rw [hemp, hie, if_neg (by simp),
        if_neg (by simp only [beq_iff_eq]; omega)]
      rfl
    · intro hpos hie
      unfold service_check_unique
      rw [hq, hcons]
      simp only []
      rw [hemp, hie, if_neg (by simp),
        if_neg (by simp only [beq_iff_eq]; omega), if_neg (by simp)]
      rfl

/-- C2 witness: a store holding a row with email `a@b` and a candidate with
the same (truthy) email produce a `Conflict` naming `a@b`. -/
theorem C2_check_unique_truthy_witness :
    (unique_fields_list (FieldSel.one "email")).Nodup
    ∧ service_check_unique usersCtx [userRowAB]
        [("email", Value.vstr "a@b")] (FieldSel.one "email") false
      = Except.error (PyError.Conflict "users" (Value.vstr "a@b")) := by
  refine ⟨by decide, ?_⟩
  have h := C2_check_unique_truthy usersCtx [userRowAB]
    [("email", Value.vstr "a@b")] (FieldSel.one "email") false (by decide)
  exact ((h.2 "email" [] (by decide)).2.2 (by decide) rfl)

/-! ## Claim C8 amended -/

theorem field_query_filter_iff (m : Model) (field_name : String)
    (data : Value) (q : Dict) (r : Row) :
    field_query_filter m field_name data q r = true ↔
      (getattr r field_name = data ∧
        ∀ p ∈ q, p.1 ∈ m.fields → getattr r p.1 = p.2) := by
  unfold field_query_filter
  rw [Bool.and_eq_true, beq_iff_eq, row_matches_query_iff]

/-- C8 (amended): the store's `get_by_field` returns `None` — not an empty
sequence — exactly when no row matches the named field and the predicate;
a `some` result is the non-empty list of exactly the matching rows. -/
theorem C8_get_by_field_characterization (m : Model) (db : List Row)
    (data : Value) (field_name : String) (q : Dict) :
    (crud_get_by_field m db data field_name q = Option.none ↔
      ∀ r ∈ db, ¬(getattr r field_name = data ∧
        ∀ p ∈ q, p.1 ∈ m.fields → getattr r p.1 = p.2))
    ∧ ∀ l, crud_get_by_field m db data field_name q = some l →
        l ≠ [] ∧ ∀ r, r ∈ l ↔ (r ∈ db ∧ getattr r field_name = data ∧
          ∀ p ∈ q, p.1 ∈ m.fields → getattr r p.1 = p.2) := by
  have hred : crud_get_by_field m db data field_name q =
      if (db.filter (field_query_filter m field_name data q)).isEmpty
      then Option.none
      else some (db.filter (field_query_filter m field_name data q)) := rfl
  by_cases h : (db.filter (field_query_filter m field_name data q)).isEmpty = true
  · have hnil : db.filter (field_query_filter m field_name data q) = [] := by
      simpa using h
    rw [hred, if_pos h]
    constructor
    · constructor
      · intro _ r hr hprop
        have hpred : field_query_filter m field_name data q r = true :=
          (field_query_filter_iff m field_name data q r).mpr hprop
        have : r ∈ db.filter (field_query_filter m field_name data q) :=
          List.mem_filter.mpr ⟨hr, hpred⟩
        rw [hnil] at this
        simp at this
      · intro _; rfl
    · intro l hl
      exact absurd hl (by simp)
  · have hne : db.filter (field_query_filter m field_name data q) ≠ [] := by
      intro hc
      rw [hc] at h
      simp at h
    rw [hred, if_neg h]
    constructor
    · constructor
      · intro hc
        exact absurd hc (by simp)
      · intro hall
        obtain ⟨r, hr⟩ := List.exists_mem_of_ne_nil _ hne
        have hmem := List.mem_filter.mp hr
        have := (field_query_filter_iff m field_name data q r).mp hmem.2
        exact absurd this (hall r hmem.1)
    · intro l hl
      have hlrec : l = db.filter (field_query_filter m field_name data q) := by
        simpa using hl.symm
      subst hlrec
      refine ⟨hne, ?_⟩
      intro r
      rw [List.mem_filter, field_query_filter_iff]

/-- C8 witness: on an empty store the `None` branch of the characterization
applies, and on a one-row store the `some` branch yields a non-empty list. -/
theorem C8_get_by_field_characterization_witness :
    crud_get_by_field usersModel [] (Value.vstr "z") "email" [] = Option.none
    ∧ [userRowAB] ≠ ([] : List Row) := by
  constructor
  · exact (C8_get_by_field_characterization usersModel []
      (Value.vstr "z") "email" []).1.mpr (by decide)
  · exact ((C8_get_by_field_characterization usersModel [userRowAB]
      (Value.vstr "a@b") "email" []).2 [userRowAB] rfl).1

/-! ## Claim C5 -/

/-- C5: the claim fails on the code. `update_by_id` called with
`ignore_error = true` on an id with no matching row does not return the
absent sentinel: `get_by_id` yields `None`, and the modification check then
evaluates `getattr(None, "summary")`, raising `AttributeError` — while
`get_by_id` itself does honour the sentinel contract on the same input. -/
theorem C5_update_by_id_ignore_error_attribute_error :
    service_update_by_id tasksCtx [] (Value.vint 5)
        [("summary", Value.vstr "x")] (some user7) Option.none true true false
      = Except.error (PyError.AttributeErr "summary")
    ∧ service_get_by_id tasksCtx [] (Value.vint 5) (some user7) true false
      = Except.ok Option.none := by
  exact ⟨rfl, rfl⟩

/-! ## Claim C3 -/

/-- C3: the claim fails on the code for a list-valued `unique_fields`. In
`BaseCRUD.save_unique` the membership test `field in data` iterates the
pydantic model's `(name, value)` pairs and is false for every field name, so
the uniqueness filter list is empty and any existing row — here one whose
email differs from the candidate's — blocks the insert; the service then
raises `Conflict` although no row matches the candidate on `email`. -/
theorem C3_save_unique_list_filter_vacuous :
    getattr userRowAB "email" ≠ getattr userDataCD "email"
    ∧ service_save_unique usersCtx [userRowAB] userDataCD
        (FieldSel.many ["email"]) false
      = Except.error (PyError.Conflict "users" (Value.vstr "c@d")) := by
  exact ⟨by decide, rfl⟩

/-! ## Claim C7 -/

/-- C7 counterexample: a soft delete performed under an identity context with
no `current_user` (the internal `from_session` context) sets `deleted_at` to
the current datetime while writing `None` into `deleted_by`, producing a row
whose soft-delete fields are set independently. -/
theorem C7_counterexample_soft_delete_without_user :
    service_soft_delete_by_id tasksCtx [taskRowLive] (Value.vint 1)
        (some systemCommons) false (Value.vdt 100)
      = Except.ok ([taskRowSysDeleted], some taskRowSysDeleted)
    ∧ getattr taskRowSysDeleted "deleted_at" ≠ Value.vnone
    ∧ getattr taskRowSysDeleted "deleted_by" = Value.vnone
    ∧ ¬ soft_delete_invariant taskRowSysDeleted := by
  refine ⟨rfl, by decide, rfl, by decide⟩

/-! ## Claim C8 -/

/-- C8 counterexample: on a store with no matching row, the store's
`get_by_field` returns Python `None` (`records if records else None`), not
the empty sequence the claim promises. -/
theorem C8_counterexample_none_not_empty :
    crud_get_by_field tasksModel [] (Value.vstr "x") "summary" [] = Option.none
    ∧ crud_get_by_field tasksModel [] (Value.vstr "x") "summary" []
        ≠ some ([] : List Row) := by
  exact ⟨rfl, by decide⟩

/-! ## Claim C9 counterexample -/

/-- C9 counterexample: with two matching rows and `limit = -1` — a truthy,
non-positive limit — `get_all` reports
`total_page = math.ceil(2 / -1) = -2`, not the `1` the claim asserts for a
non-positive limit. -/
theorem C9_counterexample_negative_limit :
    (crud_get_all tasksModel twoTaskRows [] Option.none Option.none
        (some 1) (some (-1)) Option.none Option.none).total_page = -2
    ∧ (crud_get_all tasksModel twoTaskRows [] Option.none Option.none
        (some 1) (some (-1)) Option.none Option.none).total_page ≠ 1 := by
  exact ⟨rfl, by decide⟩

/-! ## Claim C2 counterexample -/

/-- C2 counterexample: the candidate's `email` is the empty string — a
non-null value — and the store holds a row matching it exactly, so by the
claim `_check_unique` should build the predicate `{email: ""}`, count one
match and raise `Conflict`; the code instead skips the falsy value, builds an
empty predicate and returns `False` without consulting the store. -/
theorem C2_counterexample_empty_string :
    getattr userDataEmptyEmail "email" ≠ Value.vnone
    ∧ 0 < count_documents [userRowEmptyEmail] [("email", Value.vstr "")]
    ∧ service_check_unique usersCtx [userRowEmptyEmail] userDataEmptyEmail
        (FieldSel.one "email") false = Except.ok false := by
  refine ⟨by decide, by decide, rfl⟩

/-! ## Claim C10 -/

/-- C10: `_build_query` mutates a non-empty caller-supplied filter dict in
place. For a scoped non-admin identity with `include_deleted = false`, the
caller's dict object after the call is the very result dict; it has gained
the soft-delete key `deleted_at = None` and the ownership entry
`created_by = current_user` while keeping all its original keys; and passing
the same dict to a later operation that itself adds nothing (no identity,
`include_deleted = true`) still carries the accumulated scoping keys. -/
theorem C10_build_query_in_place (q : Dict) (c : CommonsDependencies)
    (hq : q ≠ []) (hu : c.current_user.truthy = true)
    (ha : (c.user_type == UserRolesAdmin) = false) :
    (build_query_effect "created_by" (some c) q false).2
      = (build_query_effect "created_by" (some c) q false).1
    ∧ dictLookup (build_query_effect "created_by" (some c) q false).1
        "deleted_at" = some Value.vnone
    ∧ dictLookup (build_query_effect "created_by" (some c) q false).1
        "created_by" = some c.current_user
    ∧ (∀ k, dictHasKey q k = true →
        dictHasKey (build_query_effect "created_by" (some c) q false).1 k
          = true)
    ∧ (build_query_effect "created_by" Option.none
        (build_query_effect "created_by" (some c) q false).1 true).2
      = (build_query_effect "created_by" Option.none
          (build_query_effect "created_by" (some c) q false).1 true).1
    ∧ (build_query_effect "created_by" Option.none
        (build_query_effect "created_by" (some c) q false).1 true).1
      = (build_query_effect "created_by" (some c) q false).1 := by
  have hqe : q.isEmpty = false := by
    cases q with
    | nil => exact absurd rfl hq
    | cons p t => rfl
  have hbq : build_query "created_by" (some c) (some q) false
      = dictInsert (dictInsert q "deleted_at" Value.vnone) "created_by"
          c.current_user := by
    unfold build_query build_ownership_query
    simp only [hu, ha, Bool.not_true, Bool.false_eq_true, ite_false, hqe]
    rfl
  have heff : build_query_effect "created_by" (some c) q false
      = (dictInsert (dictInsert q "deleted_at" Value.vnone) "created_by"
          c.current_user,
         dictInsert (dictInsert q "deleted_at" Value.vnone) "created_by"
          c.current_user) := by
    unfold build_query_effect
    simp only []
    rw [hbq, hqe]
    simp
  have hRe : (dictInsert (dictInsert q "deleted_at" Value.vnone) "created_by"
      c.current_user).isEmpty = false := by
    cases hR : dictInsert (dictInsert q "deleted_at" Value.vnone) "created_by"
        c.current_user with
    | nil => exact absurd hR (dictInsert_ne_nil _ _ _)
    | cons p t => rfl
  have hbq2 : build_query "created_by" Option.none
      (some (dictInsert (dictInsert q "deleted_at" Value.vnone) "created_by"
        c.current_user)) true
      = dictInsert (dictInsert q "deleted_at" Value.vnone) "created_by"
          c.current_user := by
    unfold build_query build_ownership_query
    simp only [hRe]
    rfl
  have heff2 : build_query_effect "created_by" Option.none
      (dictInsert (dictInsert q "deleted_at" Value.vnone) "created_by"
        c.current_user) true
      = (dictInsert (dictInsert q "deleted_at" Value.vnone) "created_by"
          c.current_user,
         dictInsert (dictInsert q "deleted_at" Value.vnone) "created_by"
          c.current_user) := by
    unfold build_query_effect
    simp only []
    rw [hbq2, hRe]
    simp
  rw [heff]
  refine ⟨rfl, ?_, ?_, ?_, ?_, ?_⟩
  · rw [dictLookup_dictInsert_ne _ _ _ _ (by decide),
      dictLookup_dictInsert_self]
  · rw [dictLookup_dictInsert_self]
  · intro k hk
    rw [dictHasKey_dictInsert, dictHasKey_dictInsert, hk]
    rfl
  · rw [heff2]
  · rw [heff2]

/-- C10 witness: a concrete non-empty caller dict under a concrete scoped
identity receives the ownership entry in place. -/
theorem C10_build_query_in_place_witness :
    ([("status", Value.vstr "done")] : Dict) ≠ []
    ∧ user7.current_user.truthy = true
    ∧ (user7.user_type == UserRolesAdmin) = false
    ∧ dictLookup (build_query_effect "created_by" (some user7)
        [("status", Value.vstr "done")] false).1 "created_by"
      = some user7.current_user := by
  refine ⟨by decide, by decide, by decide, ?_⟩
  exact (C10_build_query_in_place [("status", Value.vstr "done")] user7
    (by decide) (by decide) (by decide)).2.2.1

/-! ## Claim C9 amended -/

theorem crud_get_all_results_paged (m : Model) (db : List Row) (q : Dict)
    (s : Option String) (si : Option (List String)) (sb ob : Option String)
    (p l : Int) (hp : p ≠ 0) (hl : l ≠ 0) :
    (crud_get_all m db q s si (some p) (some l) sb ob).results
      = ((get_all_sorted m db q s si sb ob).drop ((p - 1) * l).toNat).take
          l.toNat := by
  unfold crud_get_all get_all_paged
  simp only []
  rw [if_pos (by simp [hp, hl])]

theorem crud_get_all_results_unpaged (m : Model) (db : List Row) (q : Dict)
    (s : Option String) (si : Option (List String)) (sb ob : Option String) :
    (crud_get_all m db q s si Option.none Option.none sb ob).results
      = get_all_sorted m db q s si sb ob := rfl

theorem crud_get_all_total_page_pos (m : Model) (db : List Row) (q : Dict)
    (s : Option String) (si : Option (List String)) (sb ob : Option String)
    (page : Option Int) (l : Int) (hl : l ≠ 0) :
    (crud_get_all m db q s si page (some l) sb ob).total_page
      = py_ceil_div
          (Int.ofNat (db.filter (get_all_filter m q s si)).length) l := by
  unfold crud_get_all get_all_total_page
  simp only []
  rw [if_pos (by simp [hl])]

/-- C9 (amended): for `page ≥ 1` and `limit > 0`, `get_all` counts the total
matches before pagination, returns the window of the one sorted match
sequence (the unpaginated call's results) starting at offset
`(page-1)*limit` and of length at most `limit`, and reports
`total_page = ceil(total_items / limit)`; two consecutive pages concatenate
to one contiguous window (hence no overlap); `total_page` is `1` when the
limit is zero, while a negative limit is fed into the ceiling formula
unchanged (see the counterexample). -/
theorem C9_get_all_pagination (m : Model) (db : List Row) (q : Dict)
    (s : Option String) (si : Option (List String)) (sb ob : Option String)
    (p l : Int) (hp : 1 ≤ p) (hl : 0 < l) :
    (crud_get_all m db q s si (some p) (some l) sb ob).total_items
      = (db.filter (get_all_filter m q s si)).length
    ∧ (crud_get_all m db q s si (some p) (some l) sb ob).results
      = ((crud_get_all m db q s si Option.none Option.none sb ob).results.drop
          ((p - 1) * l).toNat).take l.toNat
    ∧ (crud_get_all m db q s si (some p) (some l) sb ob).total_page
      = py_ceil_div
          (Int.ofNat
            (crud_get_all m db q s si (some p) (some l) sb ob).total_items) l
    ∧ (crud_get_all m db q s si (some p) (some l) sb ob).results
        ++ (crud_get_all m db q s si (some (p + 1)) (some l) sb ob).results
      = ((crud_get_all m db q s si Option.none Option.none sb ob).results.drop
          ((p - 1) * l).toNat).take (2 * l).toNat
    ∧ (crud_get_all m db q s si (some p) (some 0) sb ob).total_page = 1 := by
  have hp0 : p ≠ 0 := by omega
  have hp1 : p + 1 ≠ 0 := by omega
  have hl0 : l ≠ 0 := by omega
  refine ⟨rfl, ?_, ?_, ?_, rfl⟩
  · rw [crud_get_all_results_paged m db q s si sb ob p l hp0 hl0,
      crud_get_all_results_unpaged]
  · exact crud_get_all_total_page_pos m db q s si sb ob (some p) l hl0
  · rw [crud_get_all_results_paged m db q s si sb ob p l hp0 hl0,
      crud_get_all_results_paged m db q s si sb ob (p + 1) l hp1 hl0,
      crud_get_all_results_unpaged]
    have hmul : (p + 1 - 1) * l = (p - 1) * l + l := by ring
    have hnn : 0 ≤ (p - 1) * l := mul_nonneg (by omega) (by omega)
    have ha2 : ((p + 1 - 1) * l).toNat = ((p - 1) * l).toNat + l.toNat := by
      rw [hmul]
      omega
    have h2l : (2 * l).toNat = l.toNat + l.toNat := by omega
    rw [ha2, h2l, List.take_add]
    congr 1
    rw [List.drop_drop, Nat.add_comm]

/-- C9 witness: the spec's 25-row scenario with `limit = 10`. Pages 1 and 2
each return 10 rows, page 3 returns 5, `total_page = 3`, pages 1 and 2 share
no row, and page 1 is the first window of the unpaginated sequence. -/
theorem C9_get_all_pagination_witness :
    (1 : Int) ≤ 1 ∧ (0 : Int) < 10
    ∧ (crud_get_all tasksModel twentyFiveTasks [] Option.none Option.none
        (some 1) (some 10) Option.none Option.none).results
      = ((crud_get_all tasksModel twentyFiveTasks [] Option.none Option.none
          Option.none Option.none Option.none Option.none).results.drop
            (((1 : Int) - 1) * 10).toNat).take (10 : Int).toNat
    ∧ (crud_get_all tasksModel twentyFiveTasks [] Option.none Option.none
        (some 1) (some 10) Option.none Option.none).results.length = 10
    ∧ (crud_get_all tasksModel twentyFiveTasks [] Option.none Option.none
        (some 2) (some 10) Option.none Option.none).results.length = 10
    ∧ (crud_get_all tasksModel twentyFiveTasks [] Option.none Option.none
        (some 3) (some 10) Option.none Option.none).results.length = 5
    ∧ (crud_get_all tasksModel twentyFiveTasks [] Option.none Option.none
        (some 1) (some 10) Option.none Option.none).total_page = 3
    ∧ ((crud_get_all tasksModel twentyFiveTasks [] Option.none Option.none
        (some 1) (some 10) Option.none Option.none).results.filter
        (fun r => (crud_get_all tasksModel twentyFiveTasks [] Option.none
          Option.none (some 2) (some 10) Option.none
          Option.none).results.contains r)) = [] := by
  refine ⟨by decide, by decide, ?_, by decide, by decide, by decide,
    by decide, by decide⟩
  exact (C9_get_all_pagination tasksModel twentyFiveTasks [] Option.none
    Option.none Option.none Option.none 1 10 (by decide) (by decide)).2.1

/-! ## Claim C7 amended -/

theorem service_update_tail_tables (ctx : ServiceCtx) (db : List Row)
    (_id : Value) (data : Row) (uf : Option FieldSel) (ie : Bool) (q : Dict)
    (db2 : List Row) (out : Option Row)
    (hrun : service_update_tail ctx db _id data uf ie q
      = Except.ok (db2, out)) :
    db2 = db ∨ db2 = db.map (fun x =>
      if id_query_filter ctx.model _id q x then row_update x data else x) := by
  unfold service_update_tail at hrun
  cases hu : (match uf with
    | some uf0 =>
      if fieldsel_truthy uf0 then
        (service_check_unique ctx db data uf0 ie).map (fun _x => ())
      else Except.ok ()
    | Option.none => Except.ok ()) with
  | error e => rw [hu] at hrun; simp at hrun
  | ok u =>
    rw [hu] at hrun
    unfold crud_update_by_id at hrun
    simp only [] at hrun
    cases hfil : db.filter (id_query_filter ctx.model _id q) with
    | nil =>
      rw [hfil] at hrun
      simp at hrun
      exact Or.inl hrun.1.symm
    | cons r t =>
      cases t with
      | nil =>
        rw [hfil] at hrun
        simp at hrun
        exact Or.inr hrun.1.symm
      | cons r2 t2 => rw [hfil] at hrun; simp at hrun

theorem service_update_by_id_tables (ctx : ServiceCtx) (db : List Row)
    (_id : Value) (data : Row) (commons : Option CommonsDependencies)
    (uf : Option FieldSel) (cm ie idel : Bool) (db2 : List Row)
    (out : Option Row)
    (hrun : service_update_by_id ctx db _id data commons uf cm ie idel
      = Except.ok (db2, out)) :
    db2 = db ∨ db2 = db.map (fun x =>
      if id_query_filter ctx.model _id
          (build_query ctx.ownership_field commons Option.none idel) x
        then row_update x data else x) := by
  unfold service_update_by_id at hrun
  simp only [] at hrun
  cases hget : service_get_by_id ctx db _id commons ie idel with
  | error e => rw [hget] at hrun; simp at hrun
  | ok item =>
    rw [hget] at hrun
    by_cases hcm : cm = true
    · rw [hcm] at hrun
      simp only [ite_true] at hrun
      cases hmod : is_modified_any item ctx.fields_not_modified data with
      | error e => rw [hmod] at hrun; simp at hrun
      | ok b =>
        rw [hmod] at hrun
        by_cases hb : b = true
        · rw [hb] at hrun
          simp only [Bool.not_true, Bool.false_eq_true, ite_false] at hrun
          exact service_update_tail_tables ctx db _id data uf ie _ db2 out hrun
        · rw [(by simpa using hb : b = false)] at hrun
          simp only [Bool.not_false, ite_true] at hrun
          by_cases hie : ie = true
          · rw [hie] at hrun
            simp only [Bool.not_true, Bool.false_eq_true, ite_false] at hrun
            simp at hrun
            exact Or.inl hrun.1.symm
          · rw [(by simpa using hie : ie = false)] at hrun
            simp at hrun
    · rw [(by simpa using hcm : cm = false)] at hrun
      simp only [Bool.false_eq_true, ite_false] at hrun
      exact service_update_tail_tables ctx db _id data uf ie _ db2 out hrun

/-- C7 (amended): `softDeleteById` under an identity context with a truthy
`current_user` preserves the invariant that `deleted_at` and `deleted_by` are
both null or both non-null on every row of the store; it writes the current
datetime and the current user into the two fields together. (With no
`current_user` the invariant is broken — see the counterexample.) -/
theorem C7_soft_delete_preserves_invariant (ctx : ServiceCtx) (db : List Row)
    (_id : Value) (c : CommonsDependencies) (ie : Bool) (t : Nat)
    (db2 : List Row) (out : Option Row)
    (hinv : ∀ r ∈ db, soft_delete_invariant r)
    (hu : c.current_user.truthy = true)
    (hrun : service_soft_delete_by_id ctx db _id (some c) ie (Value.vdt t)
      = Except.ok (db2, out)) :
    ∀ r ∈ db2, soft_delete_invariant r := by
  unfold service_soft_delete_by_id at hrun
  by_cases hm : (!(ctx.model.fields.contains "deleted_at")
      || !(ctx.model.fields.contains "deleted_by")) = true
  · rw [if_pos hm] at hrun
    simp at hrun
  · rw [if_neg hm] at hrun
    simp only [] at hrun
    have htab := service_update_by_id_tables ctx db _id
      [("deleted_at", Value.vdt t), ("deleted_by", c.current_user)] (some c)
      Option.none true ie false db2 out hrun
    rcases htab with htab | htab
    · rw [htab]
      exact hinv
    · rw [htab]
      intro r hr
      rcases List.mem_map.mp hr with ⟨x, hx, hfx⟩
      by_cases hpx : id_query_filter ctx.model _id
          (build_query ctx.ownership_field (some c) Option.none false) x = true
      · rw [if_pos hpx] at hfx
        rw [← hfx]
        have hda : getattr (row_update x
            [("deleted_at", Value.vdt t), ("deleted_by", c.current_user)])
            "deleted_at" = Value.vdt t := by
          show getattr (dictInsert (dictInsert x "deleted_at" (Value.vdt t))
            "deleted_by" c.current_user) "deleted_at" = Value.vdt t
          unfold getattr
          rw [dictLookup_dictInsert_ne _ _ _ _ (by decide),
            dictLookup_dictInsert_self]
          rfl
        have hdb : getattr (row_update x
            [("deleted_at", Value.vdt t), ("deleted_by", c.current_user)])
            "deleted_by" = c.current_user := by
          show getattr (dictInsert (dictInsert x "deleted_at" (Value.vdt t))
            "deleted_by" c.current_user) "deleted_by" = c.current_user
          unfold getattr
          rw [dictLookup_dictInsert_self]
          rfl
        unfold soft_delete_invariant
        rw [hda, hdb]
        constructor
        · intro hc
          exact absurd hc (by simp)
        · intro hc
          exact absurd hc (truthy_ne_vnone hu)
      · rw [if_neg hpx] at hfx
        rw [← hfx]
        exact hinv x hx

/-- C7 witness: soft-deleting the live task row as user 7 yields a row whose
soft-delete fields are both populated, satisfying the invariant. -/
theorem C7_soft_delete_preserves_invariant_witness :
    soft_delete_invariant
      [("id", Value.vint 1), ("summary", Value.vstr "write spec"),
       ("created_by", Value.vint 7), ("deleted_at", Value.vdt 100),
       ("deleted_by", Value.vint 7)] := by
  have h := C7_soft_delete_preserves_invariant tasksCtx [taskRowLive]
    (Value.vint 1) user7 false 100
    [[("id", Value.vint 1), ("summary", Value.vstr "write spec"),
      ("created_by", Value.vint 7), ("deleted_at", Value.vdt 100),
      ("deleted_by", Value.vint 7)]]
    (some [("id", Value.vint 1), ("summary", Value.vstr "write spec"),
      ("created_by", Value.vint 7), ("deleted_at", Value.vdt 100),
      ("deleted_by", Value.vint 7)])
    (by decide) (by decide) (by rfl)
  exact h _ (by decide)

/-! ## Claim C4 -/

theorem service_get_by_id_of_filter (ctx : ServiceCtx) (db : List Row)
    (_id : Value) (commons : Option CommonsDependencies) (ie idel : Bool)
    (r : Row)
    (hfil : db.filter (id_query_filter ctx.model _id
      (build_query ctx.ownership_field commons Option.none idel)) = [r]) :
    service_get_by_id ctx db _id commons ie idel = Except.ok (some r) := by
  unfold service_get_by_id crud_get_by_id
  rw [hfil]
  rfl

theorem service_get_by_id_of_filter_nil (ctx : ServiceCtx) (db : List Row)
    (_id : Value) (commons : Option CommonsDependencies) (idel : Bool)
    (hfil : db.filter (id_query_filter ctx.model _id
      (build_query ctx.ownership_field commons Option.none idel)) = []) :
    service_get_by_id ctx db _id commons false idel
      = Except.error (PyError.NotFound ctx.service_name _id) := by
  unfold service_get_by_id crud_get_by_id
  rw [hfil]
  rfl

/-- C4: with `check_modified = true` and `ignore_error = false`,
`update_by_id` on a row visible under the scoping query fails `NotModified`
exactly when every field present in the payload outside the configured
audit-only set equals the row's current value; when at least one present
non-audit field differs, the update proceeds and writes the payload's set
fields into the row. -/
theorem C4_update_not_modified (ctx : ServiceCtx) (db₁ db₂ : List Row)
    (r : Row) (_id : Value) (data : Row)
    (commons : Option CommonsDependencies) (idel : Bool)
    (hfresh : ∀ x, x ∈ db₁ ∨ x ∈ db₂ → (getattr x "id" == _id) = false)
    (hid : getattr r "id" = _id)
    (hvis : row_matches_query ctx.model r
      (build_query ctx.ownership_field commons Option.none idel) = true) :
    ((∀ p ∈ data, p.1 ∉ ctx.fields_not_modified → getattr r p.1 = p.2) →
      service_update_by_id ctx (db₁ ++ r :: db₂) _id data commons
        Option.none true false idel
      = Except.error (PyError.NotModified ctx.service_name))
    ∧ ((∃ p ∈ data, p.1 ∉ ctx.fields_not_modified ∧ getattr r p.1 ≠ p.2) →
      service_update_by_id ctx (db₁ ++ r :: db₂) _id data commons
        Option.none true false idel
      = Except.ok (db₁ ++ row_update r data :: db₂,
          some (row_update r data))) := by
  have hpred : ∀ x, x ∈ db₁ ∨ x ∈ db₂ →
      id_query_filter ctx.model _id
        (build_query ctx.ownership_field commons Option.none idel) x
        = false := by
    intro x hx
    unfold id_query_filter
    rw [hfresh x hx]
    rfl
  have hpr : id_query_filter ctx.model _id
      (build_query ctx.ownership_field commons Option.none idel) r = true := by
    unfold id_query_filter
    rw [hvis]
    simp [hid]
  have hfil : (db₁ ++ r :: db₂).filter (id_query_filter ctx.model _id
      (build_query ctx.ownership_field commons Option.none idel)) = [r] :=
    filter_decomp _ db₁ db₂ r (fun x hx => hpred x (Or.inl hx))
      (fun x hx => hpred x (Or.inr hx)) hpr
  have hget := service_get_by_id_of_filter ctx (db₁ ++ r :: db₂) _id commons
    false idel r hfil
  constructor
  · intro hall
    have hofall : (data.any (fun p => getattr r p.1 != p.2
        && !(ctx.fields_not_modified.contains p.1))) = false := by
      rw [List.any_eq_false]
      intro p hp
      by_cases hf : p.1 ∈ ctx.fields_not_modified
      · simp [hf]
      · rw [hall p hp hf]
        simp
    unfold service_update_by_id
    simp only []
    rw [hget]
    simp only [ite_true]
    rw [is_modified_any_some, hofall]
    rfl
  · intro hex
    have hbad : (data.any (fun p => getattr r p.1 != p.2
        && !(ctx.fields_not_modified.contains p.1))) = true := by
      rw [List.any_eq_true]
      obtain ⟨p, hp, hnf, hne⟩ := hex
      exact ⟨p, hp, by simp [hne, hnf]⟩
    unfold service_update_by_id
    simp only []
    rw [hget]
    simp only [ite_true]
    rw [is_modified_any_some, hbad]
    simp only [Bool.not_true, Bool.false_eq_true, ite_false]
    unfold service_update_tail
    simp only []
    unfold crud_update_by_id
    simp only []
    rw [hfil, map_update_decomp _ _ db₁ db₂ r
      (fun x hx => hpred x (Or.inl hx)) (fun x hx => hpred x (Or.inr hx)) hpr]

/-- C4 witness: sending the row's own summary back fails `NotModified`;
changing the summary lets the update proceed. -/
theorem C4_update_not_modified_witness :
    service_update_by_id tasksCtx [taskRowLive] (Value.vint 1)
        [("summary", Value.vstr "write spec")] (some user7) Option.none
        true false false
      = Except.error (PyError.NotModified "tasks")
    ∧ service_update_by_id tasksCtx [taskRowLive] (Value.vint 1)
        [("summary", Value.vstr "rewrite spec")] (some user7) Option.none
        true false false
      = Except.ok
          ([row_update taskRowLive [("summary", Value.vstr "rewrite spec")]],
           some (row_update taskRowLive
             [("summary", Value.vstr "rewrite spec")])) := by
  constructor
  · exact (C4_update_not_modified tasksCtx [] [] taskRowLive (Value.vint 1)
      [("summary", Value.vstr "write spec")] (some user7) false
      (fun x hx => by rcases hx with h | h <;> simp at h)
      (by decide) (by decide)).1 (by decide)
  · exact (C4_update_not_modified tasksCtx [] [] taskRowLive (Value.vint 1)
      [("summary", Value.vstr "rewrite spec")] (some user7) false
      (fun x hx => by rcases hx with h | h <;> simp at h)
      (by decide) (by decide)).2
      ⟨("summary", Value.vstr "rewrite spec"), by decide, by decide, by decide⟩

/-! ## Claim C1 -/

theorem build_query_scoped_lookup (ownership_field : String)
    (c : CommonsDependencies) (qopt : Option Dict) (idel : Bool)
    (hu : c.current_user.truthy = true)
    (ha : (c.user_type == UserRolesAdmin) = false) :
    dictLookup (build_query ownership_field (some c) qopt idel)
      ownership_field = some c.current_user := by
  unfold build_query build_ownership_query
  simp only [hu, ha, Bool.not_true, Bool.false_eq_true, ite_false,
    List.isEmpty_cons, Bool.not_false, ite_true]
  rw [dictUpdate_single, dictLookup_dictInsert_self]

theorem scoped_row_created_by (ctx : ServiceCtx) (c : CommonsDependencies)
    (qopt : Option Dict) (idel : Bool) (r : Row)
    (hu : c.current_user.truthy = true)
    (ha : (c.user_type == UserRolesAdmin) = false)
    (hof : ctx.ownership_field = "created_by")
    (hcf : ctx.model.fields.contains "created_by" = true)
    (hmatch : row_matches_query ctx.model r
      (build_query ctx.ownership_field (some c) qopt idel) = true) :
    getattr r "created_by" = c.current_user := by
  apply row_matches_query_lookup hmatch _ hcf
  rw [hof]
  exact build_query_scoped_lookup "created_by" c qopt idel hu ha

theorem service_get_by_id_ok_some_inv (ctx : ServiceCtx) (db : List Row)
    (_id : Value) (commons : Option CommonsDependencies) (ie idel : Bool)
    (r : Row)
    (h : service_get_by_id ctx db _id commons ie idel = Except.ok (some r)) :
    r ∈ db ∧ id_query_filter ctx.model _id
      (build_query ctx.ownership_field commons Option.none idel) r = true := by
  unfold service_get_by_id at h
  cases hc : crud_get_by_id ctx.model db _id
      (build_query ctx.ownership_field commons Option.none idel) with
  | error e => rw [hc] at h; simp at h
  | ok item =>
    rw [hc] at h
    cases item with
    | none =>
      by_cases hie : ie = true
      · rw [hie] at h; simp at h
      · rw [(by simpa using hie : ie = false)] at h; simp at h
    | some x =>
      have hxr : x = r := by simpa using h
      subst hxr
      unfold crud_get_by_id at hc
      have hfil := one_or_none_ok_some hc
      have hmem : x ∈ db.filter (id_query_filter ctx.model _id
          (build_query ctx.ownership_field commons Option.none idel)) := by
        rw [hfil]
        simp
      have := List.mem_filter.mp hmem
      exact ⟨this.1, this.2⟩

theorem service_get_by_field_ok_some_inv (ctx : ServiceCtx) (db : List Row)
    (v : Value) (fn : String) (commons : Option CommonsDependencies)
    (ie idel : Bool) (l : List Row)
    (h : service_get_by_field ctx db v fn commons ie idel
      = Except.ok (some l)) :
    ∀ r ∈ l, r ∈ db ∧ field_query_filter ctx.model fn v
      (build_query ctx.ownership_field commons Option.none idel) r = true := by
  unfold service_get_by_field at h
  simp only [] at h
  cases hc : crud_get_by_field ctx.model db v fn
      (build_query ctx.ownership_field commons Option.none idel) with
  | none =>
    rw [hc] at h
    by_cases hie : ie = true
    · rw [hie] at h; simp at h
    · rw [(by simpa using hie : ie = false)] at h; simp at h
  | some l0 =>
    rw [hc] at h
    have hl0 : l0 = l := by simpa using h
    subst hl0
    unfold crud_get_by_field at hc
    by_cases he : (db.filter (field_query_filter ctx.model fn v
        (build_query ctx.ownership_field commons Option.none idel))).isEmpty
        = true
    · rw [if_pos he] at hc; simp at hc
    · rw [if_neg he] at hc
      have hrec : db.filter (field_query_filter ctx.model fn v
          (build_query ctx.ownership_field commons Option.none idel)) = l0 := by
        simpa using hc
      intro r hr
      rw [← hrec] at hr
      have := List.mem_filter.mp hr
      exact ⟨this.1, this.2⟩

theorem get_all_results_mem (m : Model) (db : List Row) (q : Dict)
    (s : Option String) (si : Option (List String)) (page limit : Option Int)
    (sb ob : Option String) (r : Row)
    (h : r ∈ (crud_get_all m db q s si page limit sb ob).results) :
    r ∈ db ∧ get_all_filter m q s si r = true := by
  have h1 : r ∈ get_all_sorted m db q s si sb ob := by
    have h0 : r ∈ get_all_paged (get_all_sorted m db q s si sb ob)
        page limit := h
    unfold get_all_paged at h0
    cases page with
    | none => exact h0
    | some p =>
      cases limit with
      | none => exact h0
      | some l =>
        simp only [] at h0
        by_cases hc : (p != 0 && l != 0) = true
        · rw [if_pos hc] at h0
          exact List.mem_of_mem_drop (List.mem_of_mem_take h0)
        · rw [if_neg hc] at h0
          exact h0
  have h2 : r ∈ db.filter (get_all_filter m q s si) := by
    unfold get_all_sorted at h1
    cases sb with
    | none => exact h1
    | some sb0 =>
      simp only [] at h1
      by_cases hc : (sb0 != "" && m.fields.contains sb0) = true
      · rw [if_pos hc] at h1
        exact (mem_sort_rows _ _ _).mp h1
      · rw [if_neg hc] at h1
        exact h1
  have := List.mem_filter.mp h2
  exact ⟨this.1, this.2⟩

theorem build_ownership_query_none (c2 : Option CommonsDependencies)
    (h : match c2 with
      | Option.none => True
      | some c2 => c2.current_user.truthy = false
          ∨ (c2.user_type == UserRolesAdmin) = true) :
    build_ownership_query "created_by" c2 = Option.none := by
  cases c2 with
  | none => rfl
  | some c2 =>
    unfold build_ownership_query
    rcases h with h | h
    · simp [h]
    · simp [h]

/-- C1: under the default ownership field `created_by`, declared on the
model: for a scoped identity (truthy `current_user`, non-admin role) every
row returned by `get_by_id`, `get_by_field` or `get_all` has
`created_by = current_user`; for an admin identity or an identity context
with no (truthy) current user, no ownership predicate is built, and the
effective query constrains `created_by` only if the caller's own filter
already did. -/
theorem C1_ownership_scoping (ctx : ServiceCtx) (c : CommonsDependencies)
    (hu : c.current_user.truthy = true)
    (ha : (c.user_type == UserRolesAdmin) = false)
    (hof : ctx.ownership_field = "created_by")
    (hcf : ctx.model.fields.contains "created_by" = true) :
    (∀ db _id ie idel r,
      service_get_by_id ctx db _id (some c) ie idel = Except.ok (some r) →
      getattr r "created_by" = c.current_user)
    ∧ (∀ db v fn ie idel l,
        service_get_by_field ctx db v fn (some c) ie idel
          = Except.ok (some l) →
        ∀ r ∈ l, getattr r "created_by" = c.current_user)
    ∧ (∀ db q s si page limit sb ob idel r,
        r ∈ (service_get_all ctx db (some c) q s si page limit sb ob
          idel).results →
        getattr r "created_by" = c.current_user)
    ∧ (∀ c2 : Option CommonsDependencies,
        (match c2 with
         | Option.none => True
         | some c2 => c2.current_user.truthy = false
             ∨ (c2.user_type == UserRolesAdmin) = true) →
        build_ownership_query "created_by" c2 = Option.none
        ∧ ∀ q idel, dictHasKey q "created_by" = false →
            dictHasKey (build_query "created_by" c2 (some q) idel)
              "created_by" = false) := by
  refine ⟨?_, ?_, ?_, ?_⟩
  · intro db _id ie idel r h
    have hinv := (service_get_by_id_ok_some_inv ctx db _id (some c) ie idel
      r h).2
    unfold id_query_filter at hinv
    rw [Bool.and_eq_true] at hinv
    exact scoped_row_created_by ctx c Option.none idel r hu ha hof hcf hinv.2
  · intro db v fn ie idel l h r hr
    have hinv := (service_get_by_field_ok_some_inv ctx db v fn (some c) ie
      idel l h r hr).2
    unfold field_query_filter at hinv
    rw [Bool.and_eq_true] at hinv
    exact scoped_row_created_by ctx c Option.none idel r hu ha hof hcf hinv.2
  · intro db q s si page limit sb ob idel r h
    have hinv := (get_all_results_mem ctx.model db
      (build_query ctx.ownership_field (some c) q idel) s si page limit
      sb ob r h).2
    unfold get_all_filter at hinv
    rw [Bool.and_eq_true] at hinv
    exact scoped_row_created_by ctx c q idel r hu ha hof hcf hinv.1
  · intro c2 h2
    have hnone := build_ownership_query_none c2 h2
    refine ⟨hnone, ?_⟩
    intro q idel hq
    unfold build_query
    rw [hnone]
    simp only []
    by_cases hqe : q.isEmpty = true
    · rw [if_pos hqe]
      by_cases hidel : idel = true
      · rw [hidel]
        rfl
      · rw [(by simpa using hidel : idel = false)]
        simp only [Bool.not_false, ite_true, dictUpdate_single,
          dictHasKey_dictInsert]
        rfl
    · rw [if_neg hqe]
      by_cases hidel : idel = true
      · rw [hidel]
        exact hq
      · rw [(by simpa using hidel : idel = false)]
        simp only [Bool.not_false, ite_true, dictUpdate_single,
          dictHasKey_dictInsert]
        rw [hq]
        rfl

/-- C1 witness: user 7 reading their own task row gets it back with
`created_by = 7`; the admin build produces no ownership predicate. -/
theorem C1_ownership_scoping_witness :
    service_get_by_id tasksCtx [taskRowLive] (Value.vint 1) (some user7)
        false false = Except.ok (some taskRowLive)
    ∧ getattr taskRowLive "created_by" = user7.current_user
    ∧ build_ownership_query "created_by"
        (some ⟨Value.vint 1, Value.vstr "admin"⟩) = Option.none := by
  refine ⟨by rfl, ?_, ?_⟩
  · exact (C1_ownership_scoping tasksCtx user7 (by decide) (by decide) rfl
      (by decide)).1 [taskRowLive] (Value.vint 1) false false taskRowLive
      (by rfl)
  · exact ((C1_ownership_scoping tasksCtx user7 (by decide) (by decide) rfl
      (by decide)).2.2.2 (some ⟨Value.vint 1, Value.vstr "admin"⟩)
      (Or.inr (by decide))).1

/-! ## Claim C6 -/

theorem getattr_row_update_delta_deleted_at (r : Row) (now u : Value) :
    getattr (row_update r [("deleted_at", now), ("deleted_by", u)])
      "deleted_at" = now := by
  show getattr (dictInsert (dictInsert r "deleted_at" now) "deleted_by" u)
    "deleted_at" = now
  unfold getattr
  rw [dictLookup_dictInsert_ne _ _ _ _ (by decide), dictLookup_dictInsert_self]
  rfl

theorem getattr_row_update_delta_deleted_by (r : Row) (now u : Value) :
    getattr (row_update r [("deleted_at", now), ("deleted_by", u)])
      "deleted_by" = u := by
  show getattr (dictInsert (dictInsert r "deleted_at" now) "deleted_by" u)
    "deleted_by" = u
  unfold getattr
  rw [dictLookup_dictInsert_self]
  rfl

theorem getattr_row_update_delta_other (r : Row) (now u : Value) (f : String)
    (h1 : f ≠ "deleted_at") (h2 : f ≠ "deleted_by") :
    getattr (row_update r [("deleted_at", now), ("deleted_by", u)]) f
      = getattr r f := by
  show getattr (dictInsert (dictInsert r "deleted_at" now) "deleted_by" u) f
    = getattr r f
  unfold getattr
  rw [dictLookup_dictInsert_ne _ _ _ _ h2, dictLookup_dictInsert_ne _ _ _ _ h1]

theorem C6_aux (ctx : ServiceCtx) (db₁ db₂ : List Row) (r : Row)
    (_id : Value) (c : CommonsDependencies) (now : Value)
    (hda : ctx.model.fields.contains "deleted_at" = true)
    (hdb : ctx.model.fields.contains "deleted_by" = true)
    (hfnm : ctx.fields_not_modified.contains "deleted_at" = false)
    (hnow : now ≠ Value.vnone)
    (hfresh : ∀ x, x ∈ db₁ ∨ x ∈ db₂ → (getattr x "id" == _id) = false)
    (hid : getattr r "id" = _id)
    (hvis : row_matches_query ctx.model r
      (build_query ctx.ownership_field (some c) Option.none false) = true)
    (hrda : getattr r "deleted_at" = Value.vnone)
    (hr'false : row_matches_query ctx.model
      (row_update r [("deleted_at", now), ("deleted_by", c.current_user)])
      (build_query ctx.ownership_field (some c) Option.none false) = false)
    (hr'incl : row_matches_query ctx.model
      (row_update r [("deleted_at", now), ("deleted_by", c.current_user)])
      (build_query ctx.ownership_field (some c) Option.none true) = true) :
    service_soft_delete_by_id ctx (db₁ ++ r :: db₂) _id (some c) false now
      = Except.ok
        (db₁ ++ row_update r
            [("deleted_at", now), ("deleted_by", c.current_user)] :: db₂,
         some (row_update r
            [("deleted_at", now), ("deleted_by", c.current_user)]))
    ∧ service_get_by_id ctx (db₁ ++ row_update r
          [("deleted_at", now), ("deleted_by", c.current_user)] :: db₂)
        _id (some c) false false
      = Except.error (PyError.NotFound ctx.service_name _id)
    ∧ service_get_by_id ctx (db₁ ++ row_update r
          [("deleted_at", now), ("deleted_by", c.current_user)] :: db₂)
        _id (some c) false true
      = Except.ok (some (row_update r
          [("deleted_at", now), ("deleted_by", c.current_user)]))
    ∧ ∀ now2, service_soft_delete_by_id ctx (db₁ ++ row_update r
          [("deleted_at", now), ("deleted_by", c.current_user)] :: db₂)
        _id (some c) false now2
      = Except.error (PyError.NotFound ctx.service_name _id) := by
  have hpred_other : ∀ (qq : Dict) x, x ∈ db₁ ∨ x ∈ db₂ →
      id_query_filter ctx.model _id qq x = false := by
    intro qq x hx
    unfold id_query_filter
    rw [hfresh x hx]
    rfl
  have hpredr : id_query_filter ctx.model _id
      (build_query ctx.ownership_field (some c) Option.none false) r
      = true := by
    unfold id_query_filter
    rw [hvis]
    simp [hid]
  have hfil : (db₁ ++ r :: db₂).filter (id_query_filter ctx.model _id
      (build_query ctx.ownership_field (some c) Option.none false)) = [r] :=
    filter_decomp _ db₁ db₂ r (fun x hx => hpred_other _ x (Or.inl hx))
      (fun x hx => hpred_other _ x (Or.inr hx)) hpredr
  have hget := service_get_by_id_of_filter ctx (db₁ ++ r :: db₂) _id (some c)
    false false r hfil
  have hbne : (Value.vnone != now) = true := by
    simp only [bne_iff_ne, ne_eq]
    exact Ne.symm hnow
  have hbad : (([("deleted_at", now),
      ("deleted_by", c.current_user)] : Row).any
      (fun p => getattr r p.1 != p.2
        && !(ctx.fields_not_modified.contains p.1))) = true := by
    simp only [List.any_cons]
    rw [hrda, hbne, hfnm]
    rfl
  have hfieldchk : (!(ctx.model.fields.contains "deleted_at")
      || !(ctx.model.fields.contains "deleted_by")) = false := by
    rw [hda, hdb]
    rfl
  have hrun1 : service_soft_delete_by_id ctx (db₁ ++ r :: db₂) _id (some c)
      false now
      = Except.ok
        (db₁ ++ row_update r
            [("deleted_at", now), ("deleted_by", c.current_user)] :: db₂,
         some (row_update r
            [("deleted_at", now), ("deleted_by", c.current_user)])) := by
    unfold service_soft_delete_by_id
    rw [hfieldchk]
    simp only [Bool.false_eq_true, ite_false]
    unfold service_update_by_id
    simp only []
    rw [hget]
    simp only [ite_true]
    rw [is_modified_any_some, hbad]
    simp only [Bool.not_true, Bool.false_eq_true, ite_false]
    unfold service_update_tail
    simp only []
    unfold crud_update_by_id
    simp only []
    rw [hfil, map_update_decomp _ _ db₁ db₂ r
      (fun x hx => hpred_other _ x (Or.inl hx))
      (fun x hx => hpred_other _ x (Or.inr hx)) hpredr]
  have hfil2 : (db₁ ++ row_update r
      [("deleted_at", now), ("deleted_by", c.current_user)] :: db₂).filter
      (id_query_filter ctx.model _id
        (build_query ctx.ownership_field (some c) Option.none false))
      = [] := by
    rw [List.filter_eq_nil_iff]
    intro x hx
    rcases List.mem_append.mp hx with hx1 | hx2
    · simp [hpred_other _ x (Or.inl hx1)]
    · rcases List.mem_cons.mp hx2 with hx3 | hx4
      · subst hx3
        unfold id_query_filter
        rw [hr'false]
        simp
      · simp [hpred_other _ x (Or.inr hx4)]
  have hnf := service_get_by_id_of_filter_nil ctx
    (db₁ ++ row_update r
      [("deleted_at", now), ("deleted_by", c.current_user)] :: db₂)
    _id (some c) false hfil2
  have hidr' : getattr (row_update r
      [("deleted_at", now), ("deleted_by", c.current_user)]) "id" = _id := by
    rw [getattr_row_update_delta_other r now c.current_user "id"
      (by decide) (by decide)]
    exact hid
  have hpredr' : id_query_filter ctx.model _id
      (build_query ctx.ownership_field (some c) Option.none true)
      (row_update r [("deleted_at", now), ("deleted_by", c.current_user)])
      = true := by
    unfold id_query_filter
    rw [hr'incl]
    simp [hidr']
  have hfil3 : (db₁ ++ row_update r
      [("deleted_at", now), ("deleted_by", c.current_user)] :: db₂).filter
      (id_query_filter ctx.model _id
        (build_query ctx.ownership_field (some c) Option.none true))
      = [row_update r [("deleted_at", now), ("deleted_by", c.current_user)]] :=
    filter_decomp _ db₁ db₂ _ (fun x hx => hpred_other _ x (Or.inl hx))
      (fun x hx => hpred_other _ x (Or.inr hx)) hpredr'
  have hok := service_get_by_id_of_filter ctx
    (db₁ ++ row_update r
      [("deleted_at", now), ("deleted_by", c.current_user)] :: db₂)
    _id (some c) false true _ hfil3
  refine ⟨hrun1, hnf, hok, ?_⟩
  intro now2
  unfold service_soft_delete_by_id
  rw [hfieldchk]
  simp only [Bool.false_eq_true, ite_false]
  unfold service_update_by_id
  simp only []
  rw [hnf]

/-- C6: soft delete of a live row visible to the caller sets `deleted_at` to
the current datetime and `deleted_by` to the caller's id (both populated for
a caller with a truthy `current_user`); afterwards a default-scope
`get_by_id` of the id fails `NotFound`, `get_by_id` with
`include_deleted = true` returns the row with the two fields populated, and
a second soft delete fails `NotFound`. -/
theorem C6_soft_delete_lifecycle (ctx : ServiceCtx) (db₁ db₂ : List Row)
    (r : Row) (_id : Value) (c : CommonsDependencies) (now : Value)
    (hu : c.current_user.truthy = true)
    (hof : ctx.ownership_field = "created_by")
    (hda : ctx.model.fields.contains "deleted_at" = true)
    (hdb : ctx.model.fields.contains "deleted_by" = true)
    (hfnm : ctx.fields_not_modified.contains "deleted_at" = false)
    (hnow : now ≠ Value.vnone)
    (hfresh : ∀ x, x ∈ db₁ ∨ x ∈ db₂ → (getattr x "id" == _id) = false)
    (hid : getattr r "id" = _id)
    (hvis : row_matches_query ctx.model r
      (build_query ctx.ownership_field (some c) Option.none false) = true) :
    service_soft_delete_by_id ctx (db₁ ++ r :: db₂) _id (some c) false now
      = Except.ok
        (db₁ ++ row_update r
            [("deleted_at", now), ("deleted_by", c.current_user)] :: db₂,
         some (row_update r
            [("deleted_at", now), ("deleted_by", c.current_user)]))
    ∧ getattr (row_update r
        [("deleted_at", now), ("deleted_by", c.current_user)]) "deleted_at"
      = now
    ∧ getattr (row_update r
        [("deleted_at", now), ("deleted_by", c.current_user)]) "deleted_by"
      = c.current_user
    ∧ getattr (row_update r
        [("deleted_at", now), ("deleted_by", c.current_user)]) "deleted_by"
      ≠ Value.vnone
    ∧ service_get_by_id ctx (db₁ ++ row_update r
          [("deleted_at", now), ("deleted_by", c.current_user)] :: db₂)
        _id (some c) false false
      = Except.error (PyError.NotFound ctx.service_name _id)
    ∧ service_get_by_id ctx (db₁ ++ row_update r
          [("deleted_at", now), ("deleted_by", c.current_user)] :: db₂)
        _id (some c) false true
      = Except.ok (some (row_update r
          [("deleted_at", now), ("deleted_by", c.current_user)]))
    ∧ ∀ now2, service_soft_delete_by_id ctx (db₁ ++ row_update r
          [("deleted_at", now), ("deleted_by", c.current_user)] :: db₂)
        _id (some c) false now2
      = Except.error (PyError.NotFound ctx.service_name _id) := by
  have f2 := getattr_row_update_delta_deleted_at r now c.current_user
  have f3 := getattr_row_update_delta_deleted_by r now c.current_user
  have fcb := getattr_row_update_delta_other r now c.current_user "created_by"
    (by decide) (by decide)
  have hbneq : (now == Value.vnone) = false := by
    simp only [beq_eq_false_iff_ne, ne_eq]
    exact hnow
  by_cases hadm : (c.user_type == UserRolesAdmin) = true
  · have hq : build_query ctx.ownership_field (some c) Option.none false
        = [("deleted_at", Value.vnone)] := by
      unfold build_query build_ownership_query
      simp only [hu, hadm, Bool.not_true, Bool.false_eq_true, ite_false,
        ite_true]
      rfl
    have hqI : build_query ctx.ownership_field (some c) Option.none true
        = [] := by
      unfold build_query build_ownership_query
      simp only [hu, hadm, Bool.not_true, Bool.false_eq_true, ite_false,
        ite_true]
    have hrda : getattr r "deleted_at" = Value.vnone := by
      apply row_matches_query_lookup hvis _ hda
      rw [hq]
      rfl
    have hr'false : row_matches_query ctx.model
        (row_update r [("deleted_at", now), ("deleted_by", c.current_user)])
        (build_query ctx.ownership_field (some c) Option.none false)
        = false := by
      rw [hq]
      unfold row_matches_query
      simp only [List.all_cons, List.all_nil, Bool.and_true]
      rw [hda, f2, hbneq]
      rfl
    have hr'incl : row_matches_query ctx.model
        (row_update r [("deleted_at", now), ("deleted_by", c.current_user)])
        (build_query ctx.ownership_field (some c) Option.none true)
        = true := by
      rw [hqI]
      rfl
    have haux := C6_aux ctx db₁ db₂ r _id c now hda hdb hfnm hnow hfresh hid
      hvis hrda hr'false hr'incl
    exact ⟨haux.1, f2, f3, by rw [f3]; exact truthy_ne_vnone hu, haux.2.1,
      haux.2.2.1, haux.2.2.2⟩
  · have hadm' : (c.user_type == UserRolesAdmin) = false := by
      simpa using hadm
    have hq : build_query ctx.ownership_field (some c) Option.none false
        = [("deleted_at", Value.vnone), ("created_by", c.current_user)] := by
      rw [hof]
      unfold build_query build_ownership_query
      simp only [hu, hadm', Bool.not_true, Bool.false_eq_true, ite_false,
        List.isEmpty_cons, Bool.not_false, ite_true]
      rfl
    have hqI : build_query ctx.ownership_field (some c) Option.none true
        = [("created_by", c.current_user)] := by
      rw [hof]
      unfold build_query build_ownership_query
      simp only [hu, hadm', Bool.not_true, Bool.false_eq_true, ite_false,
        List.isEmpty_cons, Bool.not_false, ite_true]
      rfl
    have hrda : getattr r "deleted_at" = Value.vnone := by
      apply row_matches_query_lookup hvis _ hda
      rw [hq]
      rfl
    have hvis2 : (!(ctx.model.fields.contains "created_by")
        || getattr r "created_by" == c.current_user) = true := by
      have hv := hvis
      rw [hq] at hv
      unfold row_matches_query at hv
      simp only [List.all_cons, List.all_nil, Bool.and_true,
        Bool.and_eq_true] at hv
      exact hv.2
    have hr'false : row_matches_query ctx.model
        (row_update r [("deleted_at", now), ("deleted_by", c.current_user)])
        (build_query ctx.ownership_field (some c) Option.none false)
        = false := by
      rw [hq]
      unfold row_matches_query
      simp only [List.all_cons, List.all_nil, Bool.and_true]
      rw [hda, f2, hbneq]
      rfl
    have hr'incl : row_matches_query ctx.model
        (row_update r [("deleted_at", now), ("deleted_by", c.current_user)])
        (build_query ctx.ownership_field (some c) Option.none true)
        = true := by
      rw [hqI]
      unfold row_matches_query
      simp only [List.all_cons, List.all_nil, Bool.and_true]
      rw [fcb]
      exact hvis2
    have haux := C6_aux ctx db₁ db₂ r _id c now hda hdb hfnm hnow hfresh hid
      hvis hrda hr'false hr'incl
    exact ⟨haux.1, f2, f3, by rw [f3]; exact truthy_ne_vnone hu, haux.2.1,
      haux.2.2.1, haux.2.2.2⟩

/-- C6 witness: user 7 soft-deletes their live task row at time 100; the
default read then fails `NotFound`, the `include_deleted` read returns the
row with both soft-delete fields populated, and a second soft delete fails
`NotFound`. -/
theorem C6_soft_delete_lifecycle_witness :
    service_soft_delete_by_id tasksCtx [taskRowLive] (Value.vint 1)
        (some user7) false (Value.vdt 100)
      = Except.ok
        ([row_update taskRowLive
            [("deleted_at", Value.vdt 100), ("deleted_by", Value.vint 7)]],
         some (row_update taskRowLive
            [("deleted_at", Value.vdt 100), ("deleted_by", Value.vint 7)]))
    ∧ service_get_by_id tasksCtx
        [row_update taskRowLive
          [("deleted_at", Value.vdt 100), ("deleted_by", Value.vint 7)]]
        (Value.vint 1) (some user7) false false
      = Except.error (PyError.NotFound "tasks" (Value.vint 1))
    ∧ service_get_by_id tasksCtx
        [row_update taskRowLive
          [("deleted_at", Value.vdt 100), ("deleted_by", Value.vint 7)]]
        (Value.vint 1) (some user7) false true
      = Except.ok (some (row_update taskRowLive
          [("deleted_at", Value.vdt 100), ("deleted_by", Value.vint 7)]))
    ∧ service_soft_delete_by_id tasksCtx
        [row_update taskRowLive
          [("deleted_at", Value.vdt 100), ("deleted_by", Value.vint 7)]]
        (Value.vint 1) (some user7) false (Value.vdt 200)
      = Except.error (PyError.NotFound "tasks" (Value.vint 1)) := by
  have h := C6_soft_delete_lifecycle tasksCtx [] [] taskRowLive (Value.vint 1)
    user7 (Value.vdt 100) (by decide) rfl (by decide) (by decide) (by decide)
    (by decide) (fun x hx => by rcases hx with h | h <;> simp at h)
    (by decide) (by decide)
  exact ⟨h.1, h.2.2.2.2.1, h.2.2.2.2.2.1, h.2.2.2.2.2.2 (Value.vdt 200)⟩

end App
